import Mathlib

set_option linter.unusedVariables false
set_option maxRecDepth 100000

/-!
Shallow embedding of the quickwins-seo discovery-and-detection core.

Python strings are modelled as `List Char`; Python ints as `Int`/`Nat`;
Python floats that only ever hold small exact ratios (impact/effort scores,
the structured-data ratio) as `ℚ`; Python dicts used as records as
structures with `Option` fields (`dict.get` returning `None` for a missing
key); insertion-ordered dicts as association lists.  Network access is
abstracted into an explicit `fetch` function argument.  Sources:
`src/app.py`, `src/detector.py`, `src/validator.py`.
-/

namespace QW

/-- Python whitespace as tested by `str.strip()` (ASCII range). -/
def isPySpace (c : Char) : Bool :=
  c == ' ' || c == '\t' || c == '\n' || c == '\r' || c == '\x0b' || c == '\x0c'

/-- Left half of `str.strip()`. -/
def strip_left (s : List Char) : List Char := s.dropWhile isPySpace

/-- Right half of `str.strip()`. -/
def strip_right (s : List Char) : List Char := (s.reverse.dropWhile isPySpace).reverse

/-- `s.strip()`. -/
def pyStrip (s : List Char) : List Char := strip_right (strip_left s)

/-- `s.rstrip("/")`. -/
def rstrip_slash (s : List Char) : List Char := (s.reverse.dropWhile (· == '/')).reverse

/-- `s.startswith(pat)`: `pat` matches at the start of the second argument. -/
def leadsWith : List Char → List Char → Bool
  | [], _ => true
  | _ :: _, [] => false
  | p :: ps, c :: rest => p == c && leadsWith ps rest

/-- Python substring test `pat in s`. -/
def occursIn (pat : List Char) : List Char → Bool
  | [] => leadsWith pat []
  | c :: rest => leadsWith pat (c :: rest) || occursIn pat rest

/-- Worker for `str.replace` with a non-empty pattern `p0 :: prest`: scan left
to right, replacing non-overlapping occurrences by `rep`.  The first argument
is fuel, one unit per scanned position; callers pass the string's length,
which always suffices. -/
def replace_go (p0 : Char) (prest rep : List Char) : Nat → List Char → List Char
  | 0, s => s
  | _ + 1, [] => []
  | fuel + 1, c :: rest =>
    if leadsWith (p0 :: prest) (c :: rest) then
      rep ++ replace_go p0 prest rep fuel (rest.drop prest.length)
    else
      c :: replace_go p0 prest rep fuel rest

/-- `s.replace(old, new)`; every call site in the sources passes a non-empty
`old`, so the empty-pattern case is mapped to the identity. -/
def pyReplace (s old new : List Char) : List Char :=
  match old with
  | [] => s
  | p0 :: prest => replace_go p0 prest new s.length s

/-- Character of one decimal digit. -/
def digitChar : Nat → Char
  | 0 => '0'
  | 1 => '1'
  | 2 => '2'
  | 3 => '3'
  | 4 => '4'
  | 5 => '5'
  | 6 => '6'
  | 7 => '7'
  | 8 => '8'
  | _ => '9'

/-- Worker for `str(n)`: the first argument is fuel, one unit per digit;
callers pass `n + 1`, which always suffices. -/
def natCharsAux : Nat → Nat → List Char
  | 0, _ => []
  | fuel + 1, n =>
    if n < 10 then [digitChar n]
    else natCharsAux fuel (n / 10) ++ [digitChar (n % 10)]

/-- Decimal digit string of a natural number (`str(n)` for `n ≥ 0`). -/
def natChars (n : Nat) : List Char := natCharsAux (n + 1) n

/-- `str(i)` for a Python int. -/
def intChars (i : Int) : List Char :=
  if i < 0 then '-' :: natChars (-i).toNat else natChars i.toNat

/-- Decimal digit test. -/
def isDigitC (c : Char) : Bool := '0' ≤ c && c ≤ '9'

/-- Round a rational to the nearest integer, ties to even — the rounding used
by Python float formatting, transported to the exact-rational model. -/
def roundHalfEven (q : ℚ) : Int :=
  let f := ⌊q⌋
  let r := q - (f : ℚ)
  if r < 1 / 2 then f
  else if 1 / 2 < r then f + 1
  else if f % 2 = 0 then f else f + 1

/-- Digits of `"{q:.0%}"` without the trailing percent sign (which is adjacent
fixed text). -/
def pctChars (q : ℚ) : List Char := intChars (roundHalfEven (q * 100))

/-- Insertion-ordered multimap update: `m.setdefault(k, []).append(v)` on a
Python dict modelled as an association list. -/
def addToMap (m : List (List Char × List (List Char))) (k : List Char) (v : List Char) :
    List (List Char × List (List Char)) :=
  match m with
  | [] => [(k, [v])]
  | (k', vs) :: rest =>
    if k' == k then (k', vs ++ [v]) :: rest else (k', vs) :: addToMap rest k v

/-- Order-preserving deduplication, `list(dict.fromkeys(l))`. -/
def dedup_first (l : List (List Char)) : List (List Char) :=
  l.foldl (fun acc u => if acc.contains u then acc else acc ++ [u]) []

/-!  app.py: `normalize_domain` and the discovery fragment of `basic_real_audit`.  -/

/-- The case-sensitive scheme test written in `normalize_domain`:
`s.startswith(("http://", "https://"))`. -/
def starts_scheme (s : List Char) : Bool :=
  leadsWith ("http://".toList) s || leadsWith ("https://".toList) s

/-- The characters following an http/https scheme prefix, identity otherwise. -/
def after_scheme (s : List Char) : List Char :=
  if leadsWith ("https://".toList) s then s.drop 8
  else if leadsWith ("http://".toList) s then s.drop 7
  else s

/-- `urlparse(s).netloc` for strings that begin with `http://` or `https://`:
everything after the scheme separator up to the first `/`, `?` or `#`. -/
def netloc_of (s : List Char) : List Char :=
  (after_scheme s).takeWhile (fun c => !(c == '/' || c == '?' || c == '#'))

/-- ASCII case lowering, the fragment of `str.lower()` the sources exercise. -/
def pyLower (c : Char) : Char :=
  if 'A' ≤ c && c ≤ 'Z' then Char.ofNat (c.toNat + 32) else c

/-- `normalize_domain` from app.py, line for line: strip, case-sensitive scheme
check with netloc extraction, lower-case, drop a leading `www.`, split at `:`. -/
def normalize_domain (input : List Char) : List Char :=
  let s0 := pyStrip input
  if s0.isEmpty then []
  else
    let s1 := if starts_scheme s0 then netloc_of s0 else s0
    let s2 := s1.map pyLower
    let s3 := if leadsWith ("www.".toList) s2 then s2.drop 4 else s2
    s3.takeWhile (fun c => c != ':')

/-- `urlparse(u).path` for an absolute http/https URL: from the first `/` after
the host up to the first `?` or `#`; empty when the URL has no path. -/
def url_path (u : List Char) : List Char :=
  let afterHost := (after_scheme u).dropWhile (fun c => !(c == '/' || c == '?' || c == '#'))
  match afterHost with
  | '/' :: _ => afterHost.takeWhile (fun c => !(c == '?' || c == '#'))
  | _ => []

/-- `s.strip("/")`. -/
def trim_slash (s : List Char) : List Char :=
  ((s.dropWhile (· == '/')).reverse.dropWhile (· == '/')).reverse

/-- First-path-segment bucket of a URL, from `pick_sample_urls`:
`(p.path or "/").strip("/")`, then the first segment or `"_root"`. -/
def bucket_of (u : List Char) : List Char :=
  let path := url_path u
  let p := if path.isEmpty then ['/'] else path
  let t := trim_slash p
  if t.isEmpty then "_root".toList else t.takeWhile (fun c => c != '/')

/-- First loop of `pick_sample_urls`: one representative per bucket, stopping
once the sample is full. -/
def add_buckets (maxP : Nat) : List (List Char × List (List Char)) → List (List Char) →
    List (List Char)
  | [], sample => sample
  | (_, lst) :: rest, sample =>
    if maxP ≤ sample.length then sample
    else
      match lst with
      | [] => add_buckets maxP rest sample
      | c :: _ =>
        if sample.contains c then add_buckets maxP rest sample
        else add_buckets maxP rest (sample ++ [c])

/-- Second loop of `pick_sample_urls`: fill remaining capacity in discovery order. -/
def fill_rest (maxP : Nat) : List (List Char) → List (List Char) → List (List Char)
  | [], sample => sample
  | u :: rest, sample =>
    if maxP ≤ sample.length then sample
    else if sample.contains u then fill_rest maxP rest sample
    else fill_rest maxP rest (sample ++ [u])

/-- `pick_sample_urls` from app.py. -/
def pick_sample_urls (urls0 : List (List Char)) (homepage : List Char) (max_pages : Nat) :
    List (List Char) :=
  let urls := dedup_first (urls0.filter
    (fun u => leadsWith ("http://".toList) u || leadsWith ("https://".toList) u))
  let sample := if homepage.isEmpty then [] else [homepage]
  let by_bucket := urls.foldl (fun m u => addToMap m (bucket_of u) u) []
  let sample := add_buckets max_pages by_bucket sample
  let sample := fill_rest max_pages urls sample
  sample.take max_pages

/-- The sitemap-selection loop of `basic_real_audit` (app.py lines 690-697):
walk the candidate list and adopt the first sitemap whose fetched URL list is
non-empty; network access is abstracted as `fetch`. -/
def select_sitemap {σ : Type} (fetch : σ → List (List Char)) :
    List σ → Option (σ × List (List Char))
  | [] => none
  | sm :: rest =>
    let urls := fetch sm
    if urls.isEmpty then select_sitemap fetch rest else some (sm, urls)

/-- The discovery fragment of `basic_real_audit` (app.py lines 686-707): robots
sitemaps, else the default candidates; then either the homepage alone (when no
candidate yields URLs) or the bucket sample over the adopted sitemap's URLs.
The page signals of the homepage (and hence its outbound links) are not
consulted in this fragment. -/
def discover_and_sample {σ : Type} (robots_maps default_maps : List σ)
    (fetch : σ → List (List Char)) (homepage : List Char) : List (List Char) :=
  let sitemaps := if robots_maps.isEmpty then default_maps else robots_maps
  match select_sitemap fetch sitemaps with
  | none => [homepage]
  | some (_, discovered) => pick_sample_urls discovered homepage 40

/-!  detector.py  -/

/-- `normalize_url` from detector.py: strip whitespace, strip trailing slashes,
rewrite `"://www."` to `"://"`. -/
def normalize_url (u : List Char) : List Char :=
  pyReplace (rstrip_slash (pyStrip u)) ("://www.".toList) ("://".toList)

/-- Worker for `_norm_urls`, carrying the `seen` set. -/
def norm_urls_aux (seen : List (List Char)) : List (List Char) → List (List Char)
  | [] => []
  | u :: rest =>
    let n := normalize_url u
    if !n.isEmpty && !seen.contains n then n :: norm_urls_aux (n :: seen) rest
    else norm_urls_aux seen rest

/-- `_norm_urls` from detector.py: normalize and deduplicate, keeping order and
dropping URLs that normalize to the empty string. -/
def norm_urls (urls : List (List Char)) : List (List Char) := norm_urls_aux [] urls

/-- One crawled page record, the dict produced by `extract_page_signals`; every
field a detection rule reads, as `dict.get` sees it. -/
structure Page where
  url : Option (List Char) := none
  final_url : Option (List Char) := none
  status : Option Int := none
  title : Option (List Char) := none
  meta : Option (List Char) := none
  h1_count : Option Int := none
  word_count : Option Int := none
  jsonld_count : Option Int := none
  error : Option (List Char) := none
deriving DecidableEq

/-- One broken-link record from `check_links_for_broken`. -/
structure Broken where
  url : Option (List Char) := none
  status : Option Int := none
deriving DecidableEq

/-- The `Problem` dataclass from detector.py. -/
structure Problem where
  title : List Char
  severity : List Char
  description : List Char
  why_it_matters : List Char
  how_to_fix : List Char
  urls : List (List Char)
  impact_score : Int
  effort_hours : ℚ
deriving DecidableEq

/-- `Problem.priority_score`: impact over effort, or raw impact when the effort
is non-positive. -/
def Problem.priority_score (p : Problem) : ℚ :=
  if p.effort_hours ≤ 0 then (p.impact_score : ℚ)
  else (p.impact_score : ℚ) / p.effort_hours

/-- `_safe_int` on a field that holds an int or is missing. -/
def safe_int (o : Option Int) : Int := o.getD 0

/-- Truthiness of `p.get("error")`. -/
def err_flag (p : Page) : Bool :=
  match p.error with
  | some e => !e.isEmpty
  | none => false

/-- `p.get("final_url") or p.get("url")`, collapsed to the string the URL lists
receive (a missing value behaves as the empty string under `normalize_url`). -/
def page_url (p : Page) : List Char :=
  match p.final_url with
  | some f => if f.isEmpty then p.url.getD [] else f
  | none => p.url.getD []

/-- `(p.get("title") or "").strip()`. -/
def title_of (p : Page) : List Char := pyStrip (p.title.getD [])

/-- `(p.get("meta") or "").strip()`. -/
def meta_of (p : Page) : List Char := pyStrip (p.meta.getD [])

def mh1_desc_tail : List Char :=
  " pages have no H1 heading tag. The H1 is the most important on-page heading signal for search engines.".toList

def mh1_why : List Char :=
  "Google uses the H1 as a primary signal to understand a page's main topic. Pages without an H1 are harder to rank because search engines must guess the topic from other content.".toList

def mh1_how : List Char :=
  "Add a single, descriptive H1 tag to each page that clearly states the page's main topic. Ensure it contains the primary keyword for that page.".toList

/-- `_detect_missing_h1`. -/
def detect_missing_h1 (pages : List Page) : Option Problem :=
  let urls := (pages.filter (fun p => !err_flag p && safe_int p.h1_count == 0)).map page_url
  if urls.isEmpty then none
  else some {
    title := "Missing H1 Tags".toList
    severity := "critical".toList
    description := natChars urls.length ++ mh1_desc_tail
    why_it_matters := mh1_why
    how_to_fix := mh1_how
    urls := norm_urls urls
    impact_score := 9
    effort_hours := 2 }

def dmeta_desc_tail : List Char :=
  " pages share a meta description with at least one other page. Each page should have a unique meta description.".toList

def dmeta_why : List Char :=
  "Duplicate meta descriptions mean Google sees the same snippet for multiple pages, reducing click-through rates and making it harder for search engines to differentiate pages.".toList

def dmeta_how : List Char :=
  "Write a unique, compelling meta description (120-155 characters) for each page that accurately describes its specific content and includes relevant keywords.".toList

/-- The insertion-ordered `meta -> [urls]` dict built by `_detect_duplicate_meta`. -/
def meta_map_of (pages : List Page) : List (List Char × List (List Char)) :=
  pages.foldl (fun m p =>
    if err_flag p then m
    else
      let meta := meta_of p
      if meta.isEmpty then m else addToMap m meta (page_url p)) []

/-- `_detect_duplicate_meta`. -/
def detect_duplicate_meta (pages : List Page) : Option Problem :=
  let dup_urls := ((meta_map_of pages).filter (fun kv => 1 < kv.2.length)).flatMap (·.2)
  if dup_urls.isEmpty then none
  else some {
    title := "Duplicate Meta Descriptions".toList
    severity := "critical".toList
    description := natChars dup_urls.length ++ dmeta_desc_tail
    why_it_matters := dmeta_why
    how_to_fix := dmeta_how
    urls := norm_urls dup_urls
    impact_score := 8
    effort_hours := 1 }

def thin_desc_mid : List Char := " pages have fewer than ".toList

def thin_desc_tail : List Char :=
  " words. Pages with very little content are harder to rank and may be seen as low-quality by Google.".toList

def thin_why : List Char :=
  "Google's Helpful Content system penalises pages that don't provide enough value. Thin pages also have fewer keyword opportunities and are less likely to satisfy search intent.".toList

def thin_how : List Char :=
  "Expand each thin page with relevant, useful content — aim for at least 300-500 words. If a page truly has nothing to add, consider consolidating it with a related page or setting it to noindex.".toList

/-- `_detect_thin_content`. -/
def detect_thin_content (pages : List Page) (threshold : Int) : Option Problem :=
  let urls := (pages.filter (fun p =>
    !err_flag p && 0 < safe_int p.word_count && safe_int p.word_count < threshold)).map page_url
  if urls.isEmpty then none
  else some {
    title := "Thin Content".toList
    severity := "critical".toList
    description := natChars urls.length ++ thin_desc_mid ++ intChars threshold ++ thin_desc_tail
    why_it_matters := thin_why
    how_to_fix := thin_how
    urls := norm_urls urls
    impact_score := 8
    effort_hours := 4 }

def multih1_desc_tail : List Char :=
  " pages have more than one H1 tag. While not a fatal error, having a single H1 gives a clearer topical signal.".toList

def multih1_why : List Char :=
  "Multiple H1s dilute the main heading signal. Google can handle them, but a single H1 provides a stronger, unambiguous indication of the page's primary topic.".toList

def multih1_how : List Char :=
  "Keep one H1 per page for the main topic. Demote additional H1 tags to H2 or H3 as appropriate for sub-sections.".toList

/-- `_detect_multiple_h1`. -/
def detect_multiple_h1 (pages : List Page) : Option Problem :=
  let urls := (pages.filter (fun p => !err_flag p && 1 < safe_int p.h1_count)).map page_url
  if urls.isEmpty then none
  else some {
    title := "Multiple H1 Tags".toList
    severity := "warning".toList
    description := natChars urls.length ++ multih1_desc_tail
    why_it_matters := multih1_why
    how_to_fix := multih1_how
    urls := norm_urls urls
    impact_score := 6
    effort_hours := 1 }

def tlong_desc_tail : List Char :=
  " pages have title tags longer than 60 characters. Google typically truncates titles beyond this length in search results.".toList

def tlong_why : List Char :=
  "Truncated titles lose their full message in search results, which can lower click-through rates. Users may not understand what the page is about.".toList

def tlong_how : List Char :=
  "Rewrite titles to 50-60 characters, front-loading the most important keywords. Move secondary information to the meta description.".toList

/-- `_detect_title_too_long`. -/
def detect_title_too_long (pages : List Page) : Option Problem :=
  let urls := (pages.filter (fun p =>
    !err_flag p && !(title_of p).isEmpty && 60 < (title_of p).length)).map page_url
  if urls.isEmpty then none
  else some {
    title := "Title Tags Too Long".toList
    severity := "warning".toList
    description := natChars urls.length ++ tlong_desc_tail
    why_it_matters := tlong_why
    how_to_fix := tlong_how
    urls := norm_urls urls
    impact_score := 5
    effort_hours := 2 }

def mmeta_desc_tail : List Char :=
  " pages have no meta description. Google will auto-generate a snippet, which may not represent the page well.".toList

def mmeta_why : List Char :=
  "Without a meta description, Google picks a random passage from the page as the search snippet. A well-crafted meta description improves click-through rates by giving searchers a clear reason to click.".toList

def mmeta_how : List Char :=
  "Add a unique meta description (120-155 characters) to each page. Summarise the page's value proposition and include the primary keyword naturally.".toList

/-- `_detect_missing_meta`. -/
def detect_missing_meta (pages : List Page) : Option Problem :=
  let urls := (pages.filter (fun p => !err_flag p && (meta_of p).isEmpty)).map page_url
  if urls.isEmpty then none
  else some {
    title := "Missing Meta Descriptions".toList
    severity := "warning".toList
    description := natChars urls.length ++ mmeta_desc_tail
    why_it_matters := mmeta_why
    how_to_fix := mmeta_how
    urls := norm_urls urls
    impact_score := 7
    effort_hours := 3 / 2 }

def blink_desc_tail : List Char :=
  " internal links point to pages that return errors (4xx/5xx). Visitors and search engine crawlers hit dead ends.".toList

def blink_why : List Char :=
  "Broken links waste crawl budget, create poor user experience, and leak link equity into nowhere. Google may also see excessive broken links as a sign of poor site maintenance.".toList

def blink_how : List Char :=
  "For each broken link: update the href to point to the correct page, redirect the broken URL to a relevant replacement, or remove the link entirely if the content no longer exists.".toList

/-- `_detect_broken_links`. -/
def detect_broken_links (broken_examples : List Broken) : Option Problem :=
  if broken_examples.isEmpty then none
  else
    let urls := norm_urls (broken_examples.map (fun b => b.url.getD []))
    if urls.isEmpty then none
    else some {
      title := "Broken Internal Links".toList
      severity := "critical".toList
      description := natChars urls.length ++ blink_desc_tail
      why_it_matters := blink_why
      how_to_fix := blink_how
      urls := urls
      impact_score := 9
      effort_hours := 1 / 2 }

def mtitle_desc_tail : List Char :=
  " pages have no title tag. The title tag is the single most important on-page SEO element.".toList

def mtitle_why : List Char :=
  "The title tag is what Google displays as the clickable headline in search results. Without one, Google must fabricate a title, often producing a poor or irrelevant result that hurts click-through rates.".toList

def mtitle_how : List Char :=
  "Add a unique, descriptive title tag (50-60 characters) to every page. Include the primary keyword near the beginning of the title.".toList

/-- `_detect_missing_title`. -/
def detect_missing_title (pages : List Page) : Option Problem :=
  let urls := (pages.filter (fun p => !err_flag p && (title_of p).isEmpty)).map page_url
  if urls.isEmpty then none
  else some {
    title := "Missing Title Tags".toList
    severity := "critical".toList
    description := natChars urls.length ++ mtitle_desc_tail
    why_it_matters := mtitle_why
    how_to_fix := mtitle_how
    urls := norm_urls urls
    impact_score := 9
    effort_hours := 1 }

def dtitle_desc_tail : List Char :=
  " pages share a title tag with at least one other page. Each page needs a unique title for Google to distinguish them.".toList

def dtitle_why : List Char :=
  "Duplicate titles cause keyword cannibalization — Google doesn't know which page to rank for a given query, so both pages rank worse. It also confuses users who see identical titles in search results.".toList

def dtitle_how : List Char :=
  "Write a unique title for each page that reflects its specific content. Use the primary keyword for that page and differentiate from similar pages.".toList

/-- The insertion-ordered `title -> [urls]` dict built by `_detect_duplicate_titles`. -/
def title_map_of (pages : List Page) : List (List Char × List (List Char)) :=
  pages.foldl (fun m p =>
    if err_flag p then m
    else
      let title := title_of p
      if title.isEmpty then m else addToMap m title (page_url p)) []

/-- `_detect_duplicate_titles`. -/
def detect_duplicate_titles (pages : List Page) : Option Problem :=
  let dup_urls := ((title_map_of pages).filter (fun kv => 1 < kv.2.length)).flatMap (·.2)
  if dup_urls.isEmpty then none
  else some {
    title := "Duplicate Title Tags".toList
    severity := "critical".toList
    description := natChars dup_urls.length ++ dtitle_desc_tail
    why_it_matters := dtitle_why
    how_to_fix := dtitle_how
    urls := norm_urls dup_urls
    impact_score := 8
    effort_hours := 1 }

def schema_desc_of : List Char := " of ".toList

def schema_desc_mid : List Char := " analyzed pages (".toList

def schema_desc_tail : List Char :=
  "%) have no JSON-LD structured data. The site is missing rich snippet opportunities.".toList

def schema_why : List Char :=
  "Structured data (JSON-LD) enables rich results in Google — star ratings, FAQ accordions, breadcrumbs, and more. Sites with rich snippets get significantly higher click-through rates.".toList

def schema_how : List Char :=
  "Add JSON-LD schema markup to your pages. Start with the most impactful types: Article for blog posts, Product for e-commerce, LocalBusiness for local sites, or Organization for the homepage.".toList

/-- Count of valid (non-error) pages seen by `_detect_missing_schema`. -/
def total_valid_of (pages : List Page) : Nat := (pages.filter (fun p => !err_flag p)).length

/-- The valid pages lacking JSON-LD, as collected by `_detect_missing_schema`. -/
def urls_without_schema (pages : List Page) : List (List Char) :=
  (pages.filter (fun p => !err_flag p && safe_int p.jsonld_count == 0)).map page_url

/-- `_detect_missing_schema`: fires only on the site-wide pattern (ratio at
least 0.7 and at least 3 pages), capping the reported list at 40 URLs. -/
def detect_missing_schema (pages : List Page) : Option Problem :=
  let total_valid := total_valid_of pages
  let urls_without := urls_without_schema pages
  if total_valid == 0 then none
  else
    let ratio : ℚ := (urls_without.length : ℚ) / (total_valid : ℚ)
    if ratio < 7 / 10 || urls_without.length < 3 then none
    else some {
      title := "Missing Structured Data".toList
      severity := "warning".toList
      description := natChars urls_without.length ++ schema_desc_of ++ natChars total_valid
        ++ schema_desc_mid ++ pctChars ratio ++ schema_desc_tail
      why_it_matters := schema_why
      how_to_fix := schema_how
      urls := norm_urls (urls_without.take 40)
      impact_score := 5
      effort_hours := 3 }

def perr_desc_tail : List Char :=
  " URLs from the sitemap return 4xx or 5xx errors. These are dead pages that Google is being told to crawl.".toList

def perr_why : List Char :=
  "Having error pages in the sitemap wastes crawl budget and sends negative quality signals. Google expects every URL in a sitemap to return a 200 status. Stale sitemap entries degrade overall crawl efficiency.".toList

def perr_how : List Char :=
  "Remove the dead URLs from the sitemap. If the content has moved, add 301 redirects to the new locations. If the content is permanently gone, let the 404 or 410 stand but remove from sitemap.".toList

/-- `status is None or (isinstance(status, int) and status >= 400)`. -/
def status_bad (p : Page) : Bool :=
  match p.status with
  | none => true
  | some v => 400 ≤ v

/-- `_detect_pages_with_errors`: uses the requested `url` field directly. -/
def detect_pages_with_errors (pages : List Page) : Option Problem :=
  let urls := (pages.filter (fun p => status_bad p && !(p.url.getD []).isEmpty)).map
    (fun p => p.url.getD [])
  if urls.isEmpty then none
  else some {
    title := "Pages Returning Error Status".toList
    severity := "critical".toList
    description := natChars urls.length ++ perr_desc_tail
    why_it_matters := perr_why
    how_to_fix := perr_how
    urls := norm_urls urls
    impact_score := 8
    effort_hours := 1 }

/-- Insert a problem into a list that is being sorted by descending priority
score, before the first entry whose score is not larger — the comparison
Python's stable `sorted(key=priority_score, reverse=True)` realises. -/
def insert_desc (p : Problem) : List Problem → List Problem
  | [] => [p]
  | q :: qs =>
    if q.priority_score ≤ p.priority_score then p :: q :: qs
    else q :: insert_desc p qs

/-- Stable descending sort by priority score, the model of
`sorted(all_problems, key=lambda p: p.priority_score, reverse=True)`. -/
def sort_desc : List Problem → List Problem
  | [] => []
  | p :: ps => insert_desc p (sort_desc ps)

/-- The list of problems the eleven rules emit, in evaluation order, keeping
only the non-`None` results with a non-empty URL list — the `all_problems`
accumulated by `detect_problems`. -/
def all_problems_of (pages : List Page) (broken_link_examples : List Broken)
    (thin_content_threshold : Int) : List Problem :=
  ([detect_missing_h1 pages,
    detect_duplicate_meta pages,
    detect_thin_content pages thin_content_threshold,
    detect_multiple_h1 pages,
    detect_title_too_long pages,
    detect_missing_meta pages,
    detect_broken_links broken_link_examples,
    detect_missing_title pages,
    detect_duplicate_titles pages,
    detect_missing_schema pages,
    detect_pages_with_errors pages].filterMap id).filter (fun p => !p.urls.isEmpty)

/-- The result triple of `detect_problems`. -/
structure DetectionResult where
  quick_wins : List Problem
  critical_errors : List Problem
  warnings : List Problem
deriving DecidableEq

/-- `detect_problems` from detector.py: run the rules, partition by severity,
and take the top five of the stable descending sort as quick wins. -/
def detect_problems (pages : List Page) (broken_link_examples : List Broken)
    (thin_content_threshold : Int) : DetectionResult :=
  let all_problems := all_problems_of pages broken_link_examples thin_content_threshold
  { quick_wins := (sort_desc all_problems).take 5
    critical_errors := all_problems.filter (fun p => p.severity == "critical".toList)
    warnings := all_problems.filter (fun p => p.severity == "warning".toList) }

/-!  validator.py  -/

/-- The four text fields `validate_results` walks for each problem. -/
inductive FieldTag where
  | title
  | description
  | why_it_matters
  | how_to_fix
deriving DecidableEq

/-- One accumulated validation failure, carrying the data the corresponding
f-string message interpolates. -/
inductive Violation where
  | qw_missing (title : List Char)
  | qw_url_mismatch (title : List Char) (qwCount detailCount : Nat)
  | html_in (title : List Char) (f : FieldTag)
  | entity_in (title : List Char) (f : FieldTag)
  | dup_urls (title : List Char)
  | forbidden_text (title phrase : List Char)
deriving DecidableEq

/-- The fixed denylist of placeholder phrases. -/
def forbidden_phrases : List (List Char) :=
  ["Not explicitly listed".toList,
   "identified in crawl_summary".toList,
   "see sample".toList,
   "<p class=".toList,
   "<div class=".toList,
   "Not collected in this audit".toList]

/-- Python `set(a) == set(b)` on string lists. -/
def set_eq (a b : List (List Char)) : Bool :=
  a.all (fun x => b.contains x) && b.all (fun x => a.contains x)

/-- Lookup in `{p.title: p for p in all_detailed}`: the last problem with the
given title wins, as in a Python dict comprehension. -/
def dict_get (l : List Problem) (t : List Char) : Option Problem :=
  l.foldl (fun acc p => if p.title == t then some p else acc) none

/-- Check 1 of `validate_results`: every quick win must match a detailed entry
with the same URL set. -/
def check_quick_wins (qw detailed : List Problem) : List Violation :=
  qw.flatMap (fun q =>
    match dict_get detailed q.title with
    | none => [Violation.qw_missing q.title]
    | some m =>
      if set_eq q.urls m.urls then []
      else [Violation.qw_url_mismatch q.title q.urls.length m.urls.length])

/-- The `(field_name, field_val)` pairs of check 2. -/
def fields_of (p : Problem) : List (FieldTag × List Char) :=
  [(FieldTag.title, p.title),
   (FieldTag.description, p.description),
   (FieldTag.why_it_matters, p.why_it_matters),
   (FieldTag.how_to_fix, p.how_to_fix)]

/-- Check 2 of `validate_results`: flag a field holding both `<` and `>`, and a
field holding an HTML entity escape; empty fields are skipped. -/
def check_html (ps : List Problem) : List Violation :=
  ps.flatMap (fun p => (fields_of p).flatMap (fun fv =>
    if fv.2.isEmpty then []
    else
      (if fv.2.contains '<' && fv.2.contains '>' then [Violation.html_in p.title fv.1] else [])
      ++ (if occursIn ("&lt;".toList) fv.2 || occursIn ("&gt;".toList) fv.2
            || occursIn ("&amp;".toList) fv.2
          then [Violation.entity_in p.title fv.1] else [])))

/-- Check 3 of `validate_results`: `len(urls) != len(set(urls))`. -/
def check_dup_urls (ps : List Problem) : List Violation :=
  ps.flatMap (fun p =>
    if p.urls.dedup.length == p.urls.length then [] else [Violation.dup_urls p.title])

/-- The scanned text of check 4: description, rationale and remediation joined
by single spaces — the title is not part of it. -/
def full_text (p : Problem) : List Char :=
  p.description ++ ' ' :: (p.why_it_matters ++ ' ' :: p.how_to_fix)

/-- Check 4 of `validate_results` for one problem: one violation per forbidden
phrase found in `full_text`. -/
def check_forbidden_one (p : Problem) : List Violation :=
  forbidden_phrases.filterMap (fun ph =>
    if occursIn ph (full_text p) then some (Violation.forbidden_text p.title ph) else none)

/-- Check 4 of `validate_results` over all problems. -/
def check_forbidden (ps : List Problem) : List Violation :=
  ps.flatMap check_forbidden_one

/-- All violations `validate_results` accumulates, in the order the four checks
append them. -/
def violations_of (quick_wins critical_errors warnings : List Problem) : List Violation :=
  let all_detailed := critical_errors ++ warnings
  let all_problems := quick_wins ++ critical_errors ++ warnings
  check_quick_wins quick_wins all_detailed
    ++ check_html all_problems
    ++ check_dup_urls all_problems
    ++ check_forbidden all_problems

/-- `validate_results` from validator.py: raise (`Except.error`) with the full
violation list when any check failed, return `True` otherwise. -/
def validate_results (quick_wins critical_errors warnings : List Problem) :
    Except (List Violation) Bool :=
  let errors := violations_of quick_wins critical_errors warnings
  if errors.isEmpty then Except.ok true else Except.error errors

/-!  Definitions written from the spec's words, for the claims that compare the
     spec's described policy with the code's.  -/

/-- Modelled from the spec: the sitemap selection policy of spec section 4.2
step 5 — adopt the first candidate yielding at least `minUseful` URLs; if none
reaches that bar, fall back to the first candidate (in priority order) that
yielded any URLs at all. -/
def select_sitemap_spec {σ : Type} (fetch : σ → List (List Char)) (sms : List σ)
    (minUseful : Nat) : Option (σ × List (List Char)) :=
  match sms.find? (fun sm => minUseful ≤ (fetch sm).length) with
  | some sm => some (sm, fetch sm)
  | none =>
    match sms.find? (fun sm => !(fetch sm).isEmpty) with
    | some sm => some (sm, fetch sm)
    | none => none

/-- Modelled from the spec: the fallback of spec section 4.2 step 6 — when no
sitemap yields anything, use the homepage's outbound same-domain links as the
discovered set, and only when that too is empty sample the homepage alone. -/
def discover_and_sample_spec {σ : Type} (robots_maps default_maps : List σ)
    (fetch : σ → List (List Char)) (homepage : List Char)
    (homepage_links : List (List Char)) : List (List Char) :=
  let sitemaps := if robots_maps.isEmpty then default_maps else robots_maps
  match select_sitemap fetch sitemaps with
  | none =>
    if homepage_links.isEmpty then [homepage]
    else pick_sample_urls homepage_links homepage 40
  | some (_, discovered) => pick_sample_urls discovered homepage 40

/-!  Concrete inputs for counterexamples and witnesses.  -/

/-- A page record with the given URL, JSON-LD block count and a full set of
healthy signals. -/
def mkPage (u : List Char) (jl : Int) : Page :=
  { url := some u
    final_url := some u
    status := some 200
    title := some u
    meta := some u
    h1_count := some 1
    word_count := some 500
    jsonld_count := some jl
    error := none }

/-- Ten valid pages of which the first `k` lack JSON-LD. -/
def pages10 (k : Nat) : List Page :=
  (List.range 10).map (fun i =>
    mkPage (("https://e.com/p".toList) ++ natChars i) (if i < k then 0 else 1))

/-- Fetch table for the sitemap counterexample: candidate `0` yields one URL,
candidate `1` yields twenty. -/
def fetch0 : Nat → List (List Char) :=
  fun n =>
    if n = 0 then [("https://e.com/only".toList)]
    else if n = 1 then (List.range 20).map (fun i => ("https://e.com/p".toList) ++ natChars i)
    else []

/-- Fetch table that yields no URLs for any candidate. -/
def fetchNone : Nat → List (List Char) := fun _ => []

/-- Homepage outbound links for the discovery-fallback counterexample. -/
def linksW : List (List Char) :=
  [("https://e.com/a".toList), ("https://e.com/b".toList)]

/-- Witness crawl: one page missing its title, one page missing its H1. -/
def pagesW : List Page :=
  [{ url := some ("https://e.com".toList)
     final_url := some ("https://e.com".toList)
     status := some 200
     title := some []
     meta := some ("home".toList)
     h1_count := some 1
     word_count := some 500
     jsonld_count := some 1
     error := none },
   { url := some ("https://e.com/a".toList)
     final_url := some ("https://e.com/a".toList)
     status := some 200
     title := some ("Page A".toList)
     meta := some ("a".toList)
     h1_count := some 0
     word_count := some 500
     jsonld_count := some 1
     error := none }]

/-- Witness broken-link pool: one dead internal link. -/
def brokenW : List Broken :=
  [{ url := some ("https://e.com/dead".toList), status := some 404 }]

/-- A problem whose only forbidden-phrase occurrence is its title. -/
def pTitleOnly : Problem :=
  { title := "Not explicitly listed".toList
    severity := "critical".toList
    description := "x".toList
    why_it_matters := "y".toList
    how_to_fix := "z".toList
    urls := [("https://e.com".toList)]
    impact_score := 5
    effort_hours := 1 }

/-!  Predicates the verification layer states its invariants with.  -/

/-- A text free of the characters the markup checks react to. -/
@[reducible] def NoMarkup (s : List Char) : Prop := '<' ∉ s ∧ '&' ∉ s

/-- Every structural property of a problem that the validator's four checks
consume: deduplicated URLs, a known severity, markup-free fields and a
phrase-free scanned text. -/
def GoodProblem (p : Problem) : Prop :=
  p.urls.Nodup ∧
  (p.severity = ("critical").toList ∨ p.severity = ("warning").toList) ∧
  NoMarkup p.title ∧ NoMarkup p.description ∧ NoMarkup p.why_it_matters ∧
  NoMarkup p.how_to_fix ∧
  ∀ ph ∈ forbidden_phrases, occursIn ph (full_text p) = false

/-- A phrase that shares no character with a rendered number (`str(n)`):
no decimal digit and no minus sign. -/
def phrase_ok (ph : List Char) : Bool := ph.all (fun c => !isDigitC c && !(c == '-'))

/-- The fixed titles of the eleven rules, in evaluation order. -/
def rule_titles : List (List Char) :=
  ["Missing H1 Tags".toList,
   "Duplicate Meta Descriptions".toList,
   "Thin Content".toList,
   "Multiple H1 Tags".toList,
   "Title Tags Too Long".toList,
   "Missing Meta Descriptions".toList,
   "Broken Internal Links".toList,
   "Missing Title Tags".toList,
   "Duplicate Title Tags".toList,
   "Missing Structured Data".toList,
   "Pages Returning Error Status".toList]

/-!  Character-level facts about rendered numbers.  -/

theorem digitChar_digit (d : Nat) : isDigitC (digitChar d) = true := by
  unfold digitChar
  split <;> decide

theorem natChars_ne_nil (n : Nat) : natChars n ≠ [] := by
  intro h
  unfold natChars natCharsAux at h
  split at h <;> simp_all

theorem natCharsAux_digits : ∀ (fuel n : Nat), ∀ c ∈ natCharsAux fuel n, isDigitC c = true := by
  intro fuel
  induction fuel with
  | zero =>
    intro n c hc
    simp [natCharsAux] at hc
  | succ f ih =>
    intro n c hc
    unfold natCharsAux at hc
    split at hc
    · simp only [List.mem_singleton] at hc
      subst hc
      exact digitChar_digit n
    · rcases List.mem_append.mp hc with h | h
      · exact ih (n / 10) c h
      · simp only [List.mem_singleton] at h
        subst h
        exact digitChar_digit (n % 10)

theorem natChars_digits (n : Nat) : ∀ c ∈ natChars n, isDigitC c = true :=
  natCharsAux_digits (n + 1) n

theorem natChars_not_mem {c : Char} (hc : isDigitC c = false) (n : Nat) :
    c ∉ natChars n := by
  intro h
  have := natChars_digits n c h
  simp_all

theorem intChars_not_mem {c : Char} (hc : isDigitC c = false) (hm : ¬c = '-') (i : Int) :
    c ∉ intChars i := by
  intro h
  unfold intChars at h
  split at h
  · rcases List.mem_cons.mp h with h2 | h2
    · exact hm h2
    · exact natChars_not_mem hc _ h2
  · exact natChars_not_mem hc _ h

theorem intChars_ne_nil (i : Int) : intChars i ≠ [] := by
  unfold intChars
  split
  · simp
  · exact natChars_ne_nil _

/-!  Facts about `leadsWith` and `occursIn`.  -/

theorem leadsWith_head {p c : Char} {ps cs : List Char}
    (h : leadsWith (p :: ps) (c :: cs) = true) : p = c ∧ leadsWith ps cs = true := by
  simpa [leadsWith, Bool.and_eq_true, beq_iff_eq] using h

theorem leadsWith_chars : ∀ {pat s : List Char}, leadsWith pat s = true →
    ∀ c ∈ pat, c ∈ s := by
  intro pat
  induction pat with
  | nil =>
    intro s h c hc
    simp at hc
  | cons p ps ih =>
    intro s h c hc
    cases s with
    | nil => simp [leadsWith] at h
    | cons a as =>
      obtain ⟨rfl, h2⟩ := leadsWith_head h
      rcases List.mem_cons.mp hc with rfl | hc2
      · exact List.mem_cons_self _ _
      · exact List.mem_cons_of_mem _ (ih h2 c hc2)

theorem leadsWith_confine : ∀ (u : List Char) {pat v : List Char},
    leadsWith pat (u ++ v) = true → pat.length ≤ u.length → leadsWith pat u = true := by
  intro u
  induction u with
  | nil =>
    intro pat v h hlen
    cases pat with
    | nil => simp [leadsWith]
    | cons p ps => simp at hlen
  | cons a u' ih =>
    intro pat v h hlen
    cases pat with
    | nil => simp [leadsWith]
    | cons p ps =>
      rw [List.cons_append] at h
      obtain ⟨rfl, h2⟩ := leadsWith_head h
      have := ih h2 (by simpa using hlen)
      simp [leadsWith, this]

theorem leadsWith_drop : ∀ (u : List Char) {pat v : List Char},
    leadsWith pat (u ++ v) = true → leadsWith (pat.drop u.length) v = true := by
  intro u
  induction u with
  | nil =>
    intro pat v h
    simpa using h
  | cons a u' ih =>
    intro pat v h
    cases pat with
    | nil => simp [leadsWith]
    | cons p ps =>
      rw [List.cons_append] at h
      obtain ⟨rfl, h2⟩ := leadsWith_head h
      simpa using ih h2

theorem occursIn_nil_pat (s : List Char) : occursIn [] s = true := by
  cases s <;> simp [occursIn, leadsWith]

theorem occursIn_of_leadsWith {pat s : List Char} (h : leadsWith pat s = true) :
    occursIn pat s = true := by
  cases s with
  | nil => simpa [occursIn] using h
  | cons c cs => simp [occursIn, h]

theorem occursIn_append_right (a : List Char) {pat b : List Char}
    (h : occursIn pat b = true) : occursIn pat (a ++ b) = true := by
  induction a with
  | nil => simpa using h
  | cons x a' ih =>
    rw [List.cons_append, occursIn, Bool.or_eq_true]
    exact Or.inr ih

theorem occursIn_chars : ∀ {pat s : List Char}, occursIn pat s = true →
    ∀ c ∈ pat, c ∈ s := by
  intro pat s
  induction s with
  | nil =>
    intro h c hc
    cases pat with
    | nil => simp at hc
    | cons p ps => simp [occursIn, leadsWith] at h
  | cons a as ih =>
    intro h c hc
    rw [occursIn, Bool.or_eq_true] at h
    rcases h with h | h
    · exact leadsWith_chars h c hc
    · exact List.mem_cons_of_mem _ (ih h c hc)

theorem occursIn_skip {pat b : List Char} : ∀ (mid : List Char),
    (∀ c ∈ pat, c ∉ mid) → occursIn pat (mid ++ b) = true → occursIn pat b = true := by
  intro mid
  induction mid with
  | nil =>
    intro _ h
    simpa using h
  | cons m ms ih =>
    intro hd h
    rw [List.cons_append, occursIn, Bool.or_eq_true] at h
    rcases h with h | h
    · cases pat with
      | nil => exact occursIn_nil_pat b
      | cons p ps =>
        obtain ⟨rfl, -⟩ := leadsWith_head h
        exact absurd (List.mem_cons_self p ms) (hd p (List.mem_cons_self p ps))
    · exact ih (fun c hc hm => hd c hc (List.mem_cons_of_mem _ hm)) h

theorem occursIn_start_cases : ∀ (a : List Char) {pat b : List Char},
    occursIn pat (a ++ b) = true →
    occursIn pat b = true ∨
      ∃ a1 a2, a = a1 ++ a2 ∧ a2 ≠ [] ∧ leadsWith pat (a2 ++ b) = true := by
  intro a
  induction a with
  | nil =>
    intro pat b h
    exact Or.inl (by simpa using h)
  | cons x a' ih =>
    intro pat b h
    rw [List.cons_append, occursIn, Bool.or_eq_true] at h
    rcases h with h | h
    · exact Or.inr ⟨[], x :: a', rfl, by simp, by rwa [List.cons_append]⟩
    · rcases ih h with h2 | ⟨a1, a2, hsplit, hne, hl⟩
      · exact Or.inl h2
      · exact Or.inr ⟨x :: a1, a2, by rw [hsplit, List.cons_append], hne, hl⟩

theorem occursIn_split {pat : List Char} (a mid b : List Char) (hmid : mid ≠ [])
    (hdisj : ∀ c ∈ pat, c ∉ mid) (h : occursIn pat (a ++ (mid ++ b)) = true) :
    occursIn pat a = true ∨ occursIn pat b = true := by
  rcases occursIn_start_cases a h with h1 | ⟨a1, a2, rfl, hne, hl⟩
  · exact Or.inr (occursIn_skip mid hdisj h1)
  · by_cases hlen : pat.length ≤ a2.length
    · left
      exact occursIn_append_right a1 (occursIn_of_leadsWith (leadsWith_confine a2 hl hlen))
    · exfalso
      push_neg at hlen
      have hdrop := leadsWith_drop a2 hl
      have hne2 : pat.drop a2.length ≠ [] := by
        intro hEq
        have := congrArg List.length hEq
        simp only [List.length_drop, List.length_nil] at this
        omega
      obtain ⟨q, qs, hq⟩ := List.exists_cons_of_ne_nil hne2
      obtain ⟨m, ms, hm⟩ := List.exists_cons_of_ne_nil hmid
      rw [hq, hm, List.cons_append] at hdrop
      obtain ⟨rfl, -⟩ := leadsWith_head hdrop
      have hqpat : q ∈ pat := List.drop_subset a2.length pat (by rw [hq]; exact List.mem_cons_self _ _)
      exact hdisj q hqpat (by rw [hm]; exact List.mem_cons_self _ _)

/-!  Phrase-avoidance helpers: a phrase with no digit and no minus sign cannot
     straddle a rendered number.  -/

theorem phrases_ok : forbidden_phrases.all phrase_ok = true := by decide

theorem phrase_disj_nat {ph : List Char} (hph : phrase_ok ph = true) (n : Nat) :
    ∀ c ∈ ph, c ∉ natChars n := by
  intro c hc
  have := List.all_eq_true.mp hph c hc
  simp only [phrase_ok, Bool.and_eq_true, Bool.not_eq_true'] at this
  exact natChars_not_mem this.1 n

theorem phrase_disj_int {ph : List Char} (hph : phrase_ok ph = true) (i : Int) :
    ∀ c ∈ ph, c ∉ intChars i := by
  intro c hc
  have := List.all_eq_true.mp hph c hc
  simp only [Bool.and_eq_true, Bool.not_eq_true'] at this
  exact intChars_not_mem this.1 (by simpa using this.2) i

theorem clean_one {K : List Char}
    (hK : forbidden_phrases.all (fun ph => !occursIn ph K) = true) (n : Nat) :
    ∀ ph ∈ forbidden_phrases, occursIn ph (natChars n ++ K) = false := by
  intro ph hph
  have hok := List.all_eq_true.mp phrases_ok ph hph
  have hKf : occursIn ph K = false := by
    have := List.all_eq_true.mp hK ph hph
    simpa using this
  by_contra hcc
  rw [Bool.not_eq_false] at hcc
  have := occursIn_skip (natChars n) (phrase_disj_nat hok n) hcc
  simp_all

theorem clean_two {K1 K2 : List Char}
    (hK1 : forbidden_phrases.all (fun ph => !occursIn ph K1) = true)
    (hK2 : forbidden_phrases.all (fun ph => !occursIn ph K2) = true)
    (n : Nat) (t : Int) :
    ∀ ph ∈ forbidden_phrases,
      occursIn ph (natChars n ++ (K1 ++ (intChars t ++ K2))) = false := by
  intro ph hph
  have hok := List.all_eq_true.mp phrases_ok ph hph
  have h1 : occursIn ph K1 = false := by simpa using List.all_eq_true.mp hK1 ph hph
  have h2 : occursIn ph K2 = false := by simpa using List.all_eq_true.mp hK2 ph hph
  by_contra hcc
  rw [Bool.not_eq_false] at hcc
  have hmidl := occursIn_skip (natChars n) (phrase_disj_nat hok n) hcc
  rcases occursIn_split K1 (intChars t) K2 (intChars_ne_nil t) (phrase_disj_int hok t) hmidl with
    h | h
  · simp_all
  · simp_all

theorem clean_three {K1 K2 K3 : List Char}
    (hK1 : forbidden_phrases.all (fun ph => !occursIn ph K1) = true)
    (hK2 : forbidden_phrases.all (fun ph => !occursIn ph K2) = true)
    (hK3 : forbidden_phrases.all (fun ph => !occursIn ph K3) = true)
    (n1 n2 : Nat) (i : Int) :
    ∀ ph ∈ forbidden_phrases,
      occursIn ph (natChars n1 ++ (K1 ++ (natChars n2 ++ (K2 ++ (intChars i ++ K3))))) = false := by
  intro ph hph
  have hok := List.all_eq_true.mp phrases_ok ph hph
  have h1 : occursIn ph K1 = false := by simpa using List.all_eq_true.mp hK1 ph hph
  have h2 : occursIn ph K2 = false := by simpa using List.all_eq_true.mp hK2 ph hph
  have h3 : occursIn ph K3 = false := by simpa using List.all_eq_true.mp hK3 ph hph
  by_contra hcc
  rw [Bool.not_eq_false] at hcc
  have hs1 := occursIn_skip (natChars n1) (phrase_disj_nat hok n1) hcc
  rcases occursIn_split K1 (natChars n2) (K2 ++ (intChars i ++ K3)) (natChars_ne_nil n2)
      (phrase_disj_nat hok n2) hs1 with h | h
  · simp_all
  · rcases occursIn_split K2 (intChars i) K3 (intChars_ne_nil i) (phrase_disj_int hok i) h with
      h' | h'
    · simp_all
    · simp_all

/-!  Markup-freedom helpers.  -/

theorem noMarkup_append {s t : List Char} (hs : NoMarkup s) (ht : NoMarkup t) :
    NoMarkup (s ++ t) := by
  constructor
  · intro h
    rcases List.mem_append.mp h with h | h
    · exact hs.1 h
    · exact ht.1 h
  · intro h
    rcases List.mem_append.mp h with h | h
    · exact hs.2 h
    · exact ht.2 h

theorem noMarkup_natChars (n : Nat) : NoMarkup (natChars n) :=
  ⟨natChars_not_mem (by decide) n, natChars_not_mem (by decide) n⟩

theorem noMarkup_intChars (i : Int) : NoMarkup (intChars i) :=
  ⟨intChars_not_mem (by decide) (by decide) i, intChars_not_mem (by decide) (by decide) i⟩

theorem noMarkup_append_left {s t : List Char} (h : NoMarkup (s ++ t)) : NoMarkup s :=
  ⟨fun hc => h.1 (List.mem_append_left _ hc), fun hc => h.2 (List.mem_append_left _ hc)⟩

theorem noMarkup_append_right {s t : List Char} (h : NoMarkup (s ++ t)) : NoMarkup t :=
  ⟨fun hc => h.1 (List.mem_append_right _ hc), fun hc => h.2 (List.mem_append_right _ hc)⟩

theorem noMarkup_cons_tail {c : Char} {s : List Char} (h : NoMarkup (c :: s)) : NoMarkup s :=
  ⟨fun hc => h.1 (List.mem_cons_of_mem _ hc), fun hc => h.2 (List.mem_cons_of_mem _ hc)⟩

/-!  `_norm_urls` produces a deduplicated list of non-empty strings.  -/

theorem norm_urls_aux_mem : ∀ {l seen : List (List Char)} {x : List Char},
    x ∈ norm_urls_aux seen l → x ∉ seen ∧ x ≠ [] := by
  intro l
  induction l with
  | nil =>
    intro seen x hx
    simp [norm_urls_aux] at hx
  | cons u rest ih =>
    intro seen x hx
    simp only [norm_urls_aux] at hx
    split at hx
    · rename_i hcond
      rcases List.mem_cons.mp hx with rfl | hx2
      · rw [Bool.and_eq_true, Bool.not_eq_true', Bool.not_eq_true'] at hcond
        constructor
        · intro hmem
          have hc : seen.elem (normalize_url u) = true := List.elem_iff.mpr hmem
          have hc' : seen.contains (normalize_url u) = true := hc
          simp_all
        · intro hnil
          rw [hnil] at hcond
          simp at hcond
      · have h2 := ih hx2
        exact ⟨fun hs => h2.1 (List.mem_cons_of_mem _ hs), h2.2⟩
    · exact ih hx

theorem norm_urls_aux_nodup : ∀ (l seen : List (List Char)),
    (norm_urls_aux seen l).Nodup := by
  intro l
  induction l with
  | nil =>
    intro seen
    simp [norm_urls_aux]
  | cons u rest ih =>
    intro seen
    simp only [norm_urls_aux]
    split
    · refine List.nodup_cons.mpr ⟨?_, ih _⟩
      intro hmem
      exact (norm_urls_aux_mem hmem).1 (List.mem_cons_self _ _)
    · exact ih _

theorem norm_urls_nodup (l : List (List Char)) : (norm_urls l).Nodup :=
  norm_urls_aux_nodup l []

/-!  The stable descending insertion sort used for quick-win ranking.  -/

theorem insert_desc_perm (p : Problem) (l : List Problem) :
    (insert_desc p l).Perm (p :: l) := by
  induction l with
  | nil => exact List.Perm.refl _
  | cons q qs ih =>
    rw [insert_desc]
    split
    · exact List.Perm.refl _
    · exact (List.Perm.cons q ih).trans (List.Perm.swap p q qs)

theorem sort_desc_perm (l : List Problem) : (sort_desc l).Perm l := by
  induction l with
  | nil => exact List.Perm.refl _
  | cons p ps ih =>
    exact (insert_desc_perm p (sort_desc ps)).trans (List.Perm.cons p ih)

theorem insert_desc_pairwise {p : Problem} {l : List Problem}
    (h : l.Pairwise (fun a b => b.priority_score ≤ a.priority_score)) :
    (insert_desc p l).Pairwise (fun a b => b.priority_score ≤ a.priority_score) := by
  induction l with
  | nil => simp [insert_desc]
  | cons q qs ih =>
    rw [insert_desc]
    obtain ⟨h1, h2⟩ := List.pairwise_cons.mp h
    split
    · rename_i hqp
      refine List.pairwise_cons.mpr ⟨?_, h⟩
      intro b hb
      rcases List.mem_cons.mp hb with rfl | hb2
      · exact hqp
      · exact le_trans (h1 b hb2) hqp
    · rename_i hqp
      refine List.pairwise_cons.mpr ⟨?_, ih h2⟩
      intro b hb
      have hb' : b ∈ p :: qs := (insert_desc_perm p qs).subset hb
      rcases List.mem_cons.mp hb' with rfl | hb2
      · exact le_of_not_le hqp
      · exact h1 b hb2

theorem sort_desc_pairwise (l : List Problem) :
    (sort_desc l).Pairwise (fun a b => b.priority_score ≤ a.priority_score) := by
  induction l with
  | nil => simp [sort_desc]
  | cons p ps ih => exact insert_desc_pairwise ih

theorem insert_desc_filter (p : Problem) (l : List Problem) (s : ℚ) :
    (insert_desc p l).filter (fun q => decide (q.priority_score = s))
      = if p.priority_score = s
        then p :: l.filter (fun q => decide (q.priority_score = s))
        else l.filter (fun q => decide (q.priority_score = s)) := by
  induction l with
  | nil =>
    by_cases hp : p.priority_score = s <;> simp [insert_desc, List.filter, hp]
  | cons q qs ih =>
    rw [insert_desc]
    split
    · rename_i hqp
      by_cases hp : p.priority_score = s <;> simp [List.filter_cons, hp]
    · rename_i hqp
      by_cases hq : q.priority_score = s
      · by_cases hp : p.priority_score = s
        · exact absurd (le_of_eq (hq.trans hp.symm)) hqp
        · simp [List.filter_cons, hq, hp, ih]
      · by_cases hp : p.priority_score = s <;> simp [List.filter_cons, hq, hp, ih]

theorem sort_desc_filter (l : List Problem) (s : ℚ) :
    (sort_desc l).filter (fun q => decide (q.priority_score = s))
      = l.filter (fun q => decide (q.priority_score = s)) := by
  induction l with
  | nil => simp [sort_desc]
  | cons p ps ih =>
    rw [sort_desc, insert_desc_filter, ih, List.filter_cons]
    by_cases hp : p.priority_score = s <;> simp [hp]

/-!  Per-rule facts: each rule's result, when present, is a `GoodProblem` with
     the rule's fixed title and severity.  -/

theorem goodProblem_mk {tl sv dtail w hw : List Char} {n : Nat}
    {urls : List (List Char)} {im : Int} {ef : ℚ}
    (hsv : sv = ("critical").toList ∨ sv = ("warning").toList)
    (hnd : urls.Nodup)
    (htl : NoMarkup tl)
    (hfx : NoMarkup (dtail ++ ' ' :: (w ++ ' ' :: hw)))
    (hforb : forbidden_phrases.all
      (fun ph => !occursIn ph (dtail ++ ' ' :: (w ++ ' ' :: hw))) = true) :
    GoodProblem ⟨tl, sv, natChars n ++ dtail, w, hw, urls, im, ef⟩ := by
  have hdt : NoMarkup dtail := noMarkup_append_left hfx
  have hrest := noMarkup_append_right hfx
  have hwn : NoMarkup w := noMarkup_append_left (noMarkup_cons_tail hrest)
  have hhn : NoMarkup hw :=
    noMarkup_cons_tail (noMarkup_append_right (noMarkup_cons_tail hrest))
  refine ⟨hnd, hsv, htl, noMarkup_append (noMarkup_natChars n) hdt, hwn, hhn, ?_⟩
  intro ph hph
  have := clean_one hforb n ph hph
  simpa [full_text, List.append_assoc] using this

theorem goodProblem_mk2 {tl sv K1 K2 w hw : List Char} {n : Nat} {t : Int}
    {urls : List (List Char)} {im : Int} {ef : ℚ}
    (hsv : sv = ("critical").toList ∨ sv = ("warning").toList)
    (hnd : urls.Nodup)
    (htl : NoMarkup tl)
    (hK1 : NoMarkup K1)
    (hfx : NoMarkup (K2 ++ ' ' :: (w ++ ' ' :: hw)))
    (hfK1 : forbidden_phrases.all (fun ph => !occursIn ph K1) = true)
    (hfX : forbidden_phrases.all
      (fun ph => !occursIn ph (K2 ++ ' ' :: (w ++ ' ' :: hw))) = true) :
    GoodProblem ⟨tl, sv, natChars n ++ K1 ++ intChars t ++ K2, w, hw, urls, im, ef⟩ := by
  have hK2 : NoMarkup K2 := noMarkup_append_left hfx
  have hrest := noMarkup_append_right hfx
  have hwn : NoMarkup w := noMarkup_append_left (noMarkup_cons_tail hrest)
  have hhn : NoMarkup hw :=
    noMarkup_cons_tail (noMarkup_append_right (noMarkup_cons_tail hrest))
  refine ⟨hnd, hsv, htl, ?_, hwn, hhn, ?_⟩
  · exact noMarkup_append (noMarkup_append (noMarkup_append (noMarkup_natChars n) hK1)
      (noMarkup_intChars t)) hK2
  · intro ph hph
    have := clean_two hfK1 hfX n t ph hph
    simpa [full_text, List.append_assoc] using this

theorem goodProblem_mk3 {tl sv K1 K2 K3 w hw : List Char} {n1 n2 : Nat} {i : Int}
    {urls : List (List Char)} {im : Int} {ef : ℚ}
    (hsv : sv = ("critical").toList ∨ sv = ("warning").toList)
    (hnd : urls.Nodup)
    (htl : NoMarkup tl)
    (hK1 : NoMarkup K1)
    (hK2 : NoMarkup K2)
    (hfx : NoMarkup (K3 ++ ' ' :: (w ++ ' ' :: hw)))
    (hfK1 : forbidden_phrases.all (fun ph => !occursIn ph K1) = true)
    (hfK2 : forbidden_phrases.all (fun ph => !occursIn ph K2) = true)
    (hfX : forbidden_phrases.all
      (fun ph => !occursIn ph (K3 ++ ' ' :: (w ++ ' ' :: hw))) = true) :
    GoodProblem ⟨tl, sv, natChars n1 ++ K1 ++ natChars n2 ++ K2 ++ intChars i ++ K3,
      w, hw, urls, im, ef⟩ := by
  have hK3 : NoMarkup K3 := noMarkup_append_left hfx
  have hrest := noMarkup_append_right hfx
  have hwn : NoMarkup w := noMarkup_append_left (noMarkup_cons_tail hrest)
  have hhn : NoMarkup hw :=
    noMarkup_cons_tail (noMarkup_append_right (noMarkup_cons_tail hrest))
  refine ⟨hnd, hsv, htl, ?_, hwn, hhn, ?_⟩
  · exact noMarkup_append (noMarkup_append (noMarkup_append (noMarkup_append
      (noMarkup_append (noMarkup_natChars n1) hK1) (noMarkup_natChars n2)) hK2)
      (noMarkup_intChars i)) hK3
  · intro ph hph
    have := clean_three hfK1 hfK2 hfX n1 n2 i ph hph
    simpa [full_text, List.append_assoc] using this

theorem mh1_spec {pages : List Page} {p : Problem} (h : detect_missing_h1 pages = some p) :
    p.title = ("Missing H1 Tags").toList ∧ p.severity = ("critical").toList ∧
    GoodProblem p := by
  simp only [detect_missing_h1] at h
  split at h
  · exact absurd h (by simp)
  · injection h with h
    subst h
    exact ⟨rfl, rfl, goodProblem_mk (Or.inl rfl) (norm_urls_nodup _)
      (by decide) (by decide) (by decide)⟩

theorem dmeta_spec {pages : List Page} {p : Problem}
    (h : detect_duplicate_meta pages = some p) :
    p.title = ("Duplicate Meta Descriptions").toList ∧ p.severity = ("critical").toList ∧
    GoodProblem p := by
  simp only [detect_duplicate_meta] at h
  split at h
  · exact absurd h (by simp)
  · injection h with h
    subst h
    exact ⟨rfl, rfl, goodProblem_mk (Or.inl rfl) (norm_urls_nodup _)
      (by decide) (by decide) (by decide)⟩

theorem thin_spec {pages : List Page} {thr : Int} {p : Problem}
    (h : detect_thin_content pages thr = some p) :
    p.title = ("Thin Content").toList ∧ p.severity = ("critical").toList ∧
    GoodProblem p := by
  simp only [detect_thin_content] at h
  split at h
  · exact absurd h (by simp)
  · injection h with h
    subst h
    exact ⟨rfl, rfl, goodProblem_mk2 (Or.inl rfl) (norm_urls_nodup _)
      (by decide) (by decide) (by decide) (by decide) (by decide)⟩

theorem multih1_spec {pages : List Page} {p : Problem}
    (h : detect_multiple_h1 pages = some p) :
    p.title = ("Multiple H1 Tags").toList ∧ p.severity = ("warning").toList ∧
    GoodProblem p := by
  simp only [detect_multiple_h1] at h
  split at h
  · exact absurd h (by simp)
  · injection h with h
    subst h
    exact ⟨rfl, rfl, goodProblem_mk (Or.inr rfl) (norm_urls_nodup _)
      (by decide) (by decide) (by decide)⟩

theorem tlong_spec {pages : List Page} {p : Problem}
    (h : detect_title_too_long pages = some p) :
    p.title = ("Title Tags Too Long").toList ∧ p.severity = ("warning").toList ∧
    GoodProblem p := by
  simp only [detect_title_too_long] at h
  split at h
  · exact absurd h (by simp)
  · injection h with h
    subst h
    exact ⟨rfl, rfl, goodProblem_mk (Or.inr rfl) (norm_urls_nodup _)
      (by decide) (by decide) (by decide)⟩

theorem mmeta_spec {pages : List Page} {p : Problem}
    (h : detect_missing_meta pages = some p) :
    p.title = ("Missing Meta Descriptions").toList ∧ p.severity = ("warning").toList ∧
    GoodProblem p := by
  simp only [detect_missing_meta] at h
  split at h
  · exact absurd h (by simp)
  · injection h with h
    subst h
    exact ⟨rfl, rfl, goodProblem_mk (Or.inr rfl) (norm_urls_nodup _)
      (by decide) (by decide) (by decide)⟩

theorem blink_spec {broken : List Broken} {p : Problem}
    (h : detect_broken_links broken = some p) :
    p.title = ("Broken Internal Links").toList ∧ p.severity = ("critical").toList ∧
    GoodProblem p := by
  simp only [detect_broken_links] at h
  split at h
  · exact absurd h (by simp)
  · split at h
    · exact absurd h (by simp)
    · injection h with h
      subst h
      exact ⟨rfl, rfl, goodProblem_mk (Or.inl rfl) (norm_urls_nodup _)
        (by decide) (by decide) (by decide)⟩

theorem mtitle_spec {pages : List Page} {p : Problem}
    (h : detect_missing_title pages = some p) :
    p.title = ("Missing Title Tags").toList ∧ p.severity = ("critical").toList ∧
    GoodProblem p := by
  simp only [detect_missing_title] at h
  split at h
  · exact absurd h (by simp)
  · injection h with h
    subst h
    exact ⟨rfl, rfl, goodProblem_mk (Or.inl rfl) (norm_urls_nodup _)
      (by decide) (by decide) (by decide)⟩

theorem dtitle_spec {pages : List Page} {p : Problem}
    (h : detect_duplicate_titles pages = some p) :
    p.title = ("Duplicate Title Tags").toList ∧ p.severity = ("critical").toList ∧
    GoodProblem p := by
  simp only [detect_duplicate_titles] at h
  split at h
  · exact absurd h (by simp)
  · injection h with h
    subst h
    exact ⟨rfl, rfl, goodProblem_mk (Or.inl rfl) (norm_urls_nodup _)
      (by decide) (by decide) (by decide)⟩

theorem schema_spec {pages : List Page} {p : Problem}
    (h : detect_missing_schema pages = some p) :
    p.title = ("Missing Structured Data").toList ∧ p.severity = ("warning").toList ∧
    GoodProblem p := by
  simp only [detect_missing_schema] at h
  split at h
  · exact absurd h (by simp)
  · split at h
    · exact absurd h (by simp)
    · injection h with h
      subst h
      refine ⟨rfl, rfl, ?_⟩
      have := @goodProblem_mk3
        (("Missing Structured Data").toList) (("warning").toList)
        schema_desc_of schema_desc_mid schema_desc_tail
        schema_why schema_how
        ((urls_without_schema pages).length) (total_valid_of pages)
        (roundHalfEven
          (((urls_without_schema pages).length : ℚ) / (total_valid_of pages : ℚ) * 100))
        (norm_urls ((urls_without_schema pages).take 40))
        5 3
        (Or.inr rfl) (norm_urls_nodup _)
        (by decide) (by decide) (by decide) (by decide) (by decide) (by decide) (by decide)
      simpa [pctChars] using this

theorem perr_spec {pages : List Page} {p : Problem}
    (h : detect_pages_with_errors pages = some p) :
    p.title = ("Pages Returning Error Status").toList ∧ p.severity = ("critical").toList ∧
    GoodProblem p := by
  simp only [detect_pages_with_errors] at h
  split at h
  · exact absurd h (by simp)
  · injection h with h
    subst h
    exact ⟨rfl, rfl, goodProblem_mk (Or.inl rfl) (norm_urls_nodup _)
      (by decide) (by decide) (by decide)⟩

/-!  The emitted problem list: membership facts and title uniqueness.  -/

theorem all_problems_spec {pages : List Page} {broken : List Broken} {thr : Int}
    {p : Problem} (hp : p ∈ all_problems_of pages broken thr) :
    GoodProblem p ∧ p.urls ≠ [] := by
  unfold all_problems_of at hp
  rw [List.mem_filter] at hp
  obtain ⟨hmem, hne⟩ := hp
  have hne' : p.urls ≠ [] := by
    intro hnil
    rw [hnil] at hne
    simp at hne
  rw [List.mem_filterMap] at hmem
  obtain ⟨o, ho, hid⟩ := hmem
  simp only [id_eq] at hid
  subst hid
  simp only [List.mem_cons, List.not_mem_nil, or_false] at ho
  rcases ho with h | h | h | h | h | h | h | h | h | h | h
  · exact ⟨(mh1_spec h.symm).2.2, hne'⟩
  · exact ⟨(dmeta_spec h.symm).2.2, hne'⟩
  · exact ⟨(thin_spec h.symm).2.2, hne'⟩
  · exact ⟨(multih1_spec h.symm).2.2, hne'⟩
  · exact ⟨(tlong_spec h.symm).2.2, hne'⟩
  · exact ⟨(mmeta_spec h.symm).2.2, hne'⟩
  · exact ⟨(blink_spec h.symm).2.2, hne'⟩
  · exact ⟨(mtitle_spec h.symm).2.2, hne'⟩
  · exact ⟨(dtitle_spec h.symm).2.2, hne'⟩
  · exact ⟨(schema_spec h.symm).2.2, hne'⟩
  · exact ⟨(perr_spec h.symm).2.2, hne'⟩

theorem filterMap_titles_step {o : Option Problem} {T : List Char}
    {rest : List (Option Problem)} {Ts : List (List Char)}
    (ho : ∀ p, o = some p → p.title = T)
    (hr : ((rest.filterMap id).map Problem.title).Sublist Ts) :
    (((o :: rest).filterMap id).map Problem.title).Sublist (T :: Ts) := by
  cases o with
  | none =>
    rw [List.filterMap_cons_none rfl]
    exact hr.cons T
  | some p =>
    have hstep : List.filterMap id (some p :: rest) = p :: List.filterMap id rest := by simp
    rw [hstep, List.map_cons, ho p rfl]
    exact hr.cons₂ T

theorem all_problems_titles_nodup (pages : List Page) (broken : List Broken) (thr : Int) :
    ((all_problems_of pages broken thr).map Problem.title).Nodup := by
  have hstep : ((([detect_missing_h1 pages,
      detect_duplicate_meta pages,
      detect_thin_content pages thr,
      detect_multiple_h1 pages,
      detect_title_too_long pages,
      detect_missing_meta pages,
      detect_broken_links broken,
      detect_missing_title pages,
      detect_duplicate_titles pages,
      detect_missing_schema pages,
      detect_pages_with_errors pages] : List (Option Problem)).filterMap id).map
        Problem.title).Sublist rule_titles := by
    unfold rule_titles
    apply filterMap_titles_step (fun p hp => (mh1_spec hp).1)
    apply filterMap_titles_step (fun p hp => (dmeta_spec hp).1)
    apply filterMap_titles_step (fun p hp => (thin_spec hp).1)
    apply filterMap_titles_step (fun p hp => (multih1_spec hp).1)
    apply filterMap_titles_step (fun p hp => (tlong_spec hp).1)
    apply filterMap_titles_step (fun p hp => (mmeta_spec hp).1)
    apply filterMap_titles_step (fun p hp => (blink_spec hp).1)
    apply filterMap_titles_step (fun p hp => (mtitle_spec hp).1)
    apply filterMap_titles_step (fun p hp => (dtitle_spec hp).1)
    apply filterMap_titles_step (fun p hp => (schema_spec hp).1)
    apply filterMap_titles_step (fun p hp => (perr_spec hp).1)
    simp
  have hfilter : ((all_problems_of pages broken thr).map Problem.title).Sublist
      ((([detect_missing_h1 pages,
      detect_duplicate_meta pages,
      detect_thin_content pages thr,
      detect_multiple_h1 pages,
      detect_title_too_long pages,
      detect_missing_meta pages,
      detect_broken_links broken,
      detect_missing_title pages,
      detect_duplicate_titles pages,
      detect_missing_schema pages,
      detect_pages_with_errors pages] : List (Option Problem)).filterMap id).map
        Problem.title) := by
    unfold all_problems_of
    exact List.Sublist.map _ (List.filter_sublist _)
  exact List.Nodup.sublist (hfilter.trans hstep) (by decide)

/-!  Validator helper lemmas.  -/

theorem dict_get_append (l : List Problem) (a : Problem) (t : List Char) :
    dict_get (l ++ [a]) t = if a.title == t then some a else dict_get l t := by
  unfold dict_get
  rw [List.foldl_append]
  rfl

theorem dict_get_of_mem_nodup : ∀ (l : List Problem),
    ((l.map Problem.title).Nodup) → ∀ q ∈ l, dict_get l q.title = some q := by
  intro l
  induction l using List.reverseRecOn with
  | nil =>
    intro _ q hq
    simp at hq
  | append_singleton l' a ih =>
    intro hnd q hq
    rw [dict_get_append]
    rw [List.map_append, List.nodup_append] at hnd
    obtain ⟨hnd1, hnd2, hdisj⟩ := hnd
    rcases List.mem_append.mp hq with hq' | hq'
    · have hmemq : q.title ∈ l'.map Problem.title := List.mem_map_of_mem _ hq'
      have ha : a.title ∉ l'.map Problem.title := by
        intro hmem
        exact hdisj hmem (by simp)
      have hne : (a.title == q.title) = false := by
        rw [beq_eq_false_iff_ne]
        intro heq
        exact ha (heq ▸ hmemq)
      rw [hne]
      simpa using ih hnd1 q hq'
    · simp only [List.mem_singleton] at hq'
      subst hq'
      simp

theorem set_eq_self (l : List (List Char)) : set_eq l l = true := by
  unfold set_eq
  rw [Bool.and_eq_true]
  constructor <;>
  · rw [List.all_eq_true]
    intro x hx
    exact List.elem_iff.mpr hx

theorem cw_titles_nodup (pages : List Page) (broken : List Broken) (thr : Int) :
    (((detect_problems pages broken thr).critical_errors
      ++ (detect_problems pages broken thr).warnings).map Problem.title).Nodup := by
  have hA := all_problems_titles_nodup pages broken thr
  have hce : (detect_problems pages broken thr).critical_errors
      = (all_problems_of pages broken thr).filter
          (fun q => q.severity == ("critical").toList) := rfl
  have hwn : (detect_problems pages broken thr).warnings
      = (all_problems_of pages broken thr).filter
          (fun q => q.severity == ("warning").toList) := rfl
  rw [hce, hwn]
  rw [List.map_append, List.nodup_append]
  refine ⟨?_, ?_, ?_⟩
  · exact List.Nodup.sublist (List.Sublist.map _ (List.filter_sublist _)) hA
  · exact List.Nodup.sublist (List.Sublist.map _ (List.filter_sublist _)) hA
  · intro t ht1 ht2
    obtain ⟨p, hpce, hpt⟩ := List.mem_map.mp ht1
    obtain ⟨q, hqw, hqt⟩ := List.mem_map.mp ht2
    have hp' := List.mem_of_mem_filter hpce
    have hq' := List.mem_of_mem_filter hqw
    have hps : (p.severity == ("critical").toList) = true := (List.mem_filter.mp hpce).2
    have hqs : (q.severity == ("warning").toList) = true := (List.mem_filter.mp hqw).2
    have hpq : p = q :=
      List.inj_on_of_nodup_map hA hp' hq' (by rw [hpt, hqt])
    rw [beq_iff_eq] at hps hqs
    rw [hpq] at hps
    rw [hps] at hqs
    exact absurd hqs (by decide)

theorem urls_without_le (pages : List Page) :
    (urls_without_schema pages).length ≤ total_valid_of pages := by
  have h1 : urls_without_schema pages
      = ((pages.filter (fun p => !err_flag p)).filter
          (fun p => safe_int p.jsonld_count == 0)).map page_url := by
    unfold urls_without_schema
    rw [List.filter_filter]
    congr 1
    apply List.filter_congr
    intro p hp
    rw [Bool.and_comm]
  rw [h1, List.length_map]
  exact List.length_filter_le _ _

theorem select_sitemap_none {σ : Type} (fetch : σ → List (List Char)) :
    ∀ (sms : List σ), (∀ sm ∈ sms, fetch sm = []) → select_sitemap fetch sms = none := by
  intro sms
  induction sms with
  | nil => intro _; rfl
  | cons sm rest ih =>
    intro h
    simp only [select_sitemap]
    rw [if_pos (by rw [h sm (List.mem_cons_self _ _)]; rfl)]
    exact ih (fun x hx => h x (List.mem_cons_of_mem _ hx))

/-!  The claims.  -/

/-- Claim C1: `detect_problems` partitions the emitted problems into
critical/warning lists by severity, and its quick wins are the first five of a
list that is a permutation of the emitted problems, descending in priority
score (impact over effort, or raw impact when effort is non-positive), with
equal scores kept in emission order (stable sort). -/
theorem claim_C1 (pages : List Page) (broken : List Broken) (thr : Int) :
    (detect_problems pages broken thr).critical_errors
      = (all_problems_of pages broken thr).filter
          (fun p => p.severity == ("critical").toList) ∧
    (detect_problems pages broken thr).warnings
      = (all_problems_of pages broken thr).filter
          (fun p => p.severity == ("warning").toList) ∧
    (∀ p : Problem, p.priority_score =
      if p.effort_hours ≤ 0 then (p.impact_score : ℚ)
      else (p.impact_score : ℚ) / p.effort_hours) ∧
    ∃ L : List Problem,
      (detect_problems pages broken thr).quick_wins = L.take 5 ∧
      L.Perm (all_problems_of pages broken thr) ∧
      L.Pairwise (fun p q => q.priority_score ≤ p.priority_score) ∧
      ∀ s : ℚ, L.filter (fun p => decide (p.priority_score = s))
        = (all_problems_of pages broken thr).filter
            (fun p => decide (p.priority_score = s)) :=
  ⟨rfl, rfl, fun _ => rfl,
    sort_desc (all_problems_of pages broken thr), rfl, sort_desc_perm _,
    sort_desc_pairwise _, fun s => sort_desc_filter _ s⟩

/-- Claim C4: the validator accumulates the violations of all four checks into
one list; it returns `True` exactly when that list is empty, and otherwise
raises a single error carrying every violation found. -/
theorem claim_C4 (qw ce w : List Problem) :
    (validate_results qw ce w = Except.ok true ↔ violations_of qw ce w = []) ∧
    (violations_of qw ce w ≠ [] →
      validate_results qw ce w = Except.error (violations_of qw ce w)) ∧
    (∀ v, v ∈ violations_of qw ce w ↔
      (v ∈ check_quick_wins qw (ce ++ w) ∨ v ∈ check_html (qw ++ ce ++ w) ∨
        v ∈ check_dup_urls (qw ++ ce ++ w) ∨ v ∈ check_forbidden (qw ++ ce ++ w))) := by
  refine ⟨?_, ?_, ?_⟩
  · unfold validate_results
    by_cases h : (violations_of qw ce w).isEmpty
    · rw [if_pos h]
      simp only [true_iff]
      exact List.isEmpty_iff.mp h
    · rw [if_neg h]
      constructor
      · intro he
        exact absurd he (by simp)
      · intro hnil
        exact absurd hnil (by simpa [List.isEmpty_iff] using h)
  · intro hne
    unfold validate_results
    rw [if_neg (by simpa [List.isEmpty_iff] using hne)]
  · intro v
    simp only [violations_of, List.mem_append, or_assoc]

theorem schema_fires_iff (pages : List Page) :
    (detect_missing_schema pages).isSome ↔
      (3 ≤ (urls_without_schema pages).length ∧
        (7 : ℚ) / 10 ≤ ((urls_without_schema pages).length : ℚ)
          / (total_valid_of pages : ℚ)) := by
  have hle := urls_without_le pages
  simp only [detect_missing_schema]
  split
  · rename_i h0
    have h0' : total_valid_of pages = 0 := by simpa using h0
    simp only [Option.isSome_none, Bool.false_eq_true, false_iff, not_and]
    intro h3
    omega
  · rename_i h0
    split
    · rename_i hcond
      simp only [Option.isSome_none, Bool.false_eq_true, false_iff, not_and]
      rw [Bool.or_eq_true] at hcond
      intro h3 h7
      rcases hcond with hc | hc
      · rw [decide_eq_true_eq] at hc
        exact absurd h7 (not_le.mpr hc)
      · rw [decide_eq_true_eq] at hc
        omega
    · rename_i hcond
      simp only [Option.isSome_some, true_iff]
      rw [Bool.or_eq_true, not_or, decide_eq_true_eq, decide_eq_true_eq,
        not_lt, not_lt] at hcond
      exact ⟨hcond.2, hcond.1⟩

theorem schema_urls (pages : List Page) : ∀ pr, detect_missing_schema pages = some pr →
    pr.urls = norm_urls ((urls_without_schema pages).take 40) ∧
    pr.severity = ("warning").toList := by
  intro pr h
  simp only [detect_missing_schema] at h
  split at h
  · exact absurd h (by simp)
  · split at h
    · exact absurd h (by simp)
    · injection h with h
      subst h
      exact ⟨rfl, rfl⟩

/-- Claim C5: the missing-structured-data rule fires exactly when at least
three valid pages lack JSON-LD and the lacking fraction is at least 0.7; when
it fires, the reported URLs are the lacking pages capped at 40 entries.  In
particular: 2 lacking of 10 valid pages yields nothing, while 8 lacking of 10
yields a problem listing those pages. -/
theorem claim_C5 (pages : List Page) :
    ((detect_missing_schema pages).isSome ↔
      (3 ≤ (urls_without_schema pages).length ∧
        (7 : ℚ) / 10 ≤ ((urls_without_schema pages).length : ℚ)
          / (total_valid_of pages : ℚ))) ∧
    (∀ pr, detect_missing_schema pages = some pr →
      pr.urls = norm_urls ((urls_without_schema pages).take 40) ∧
      pr.severity = ("warning").toList) ∧
    detect_missing_schema (pages10 2) = none ∧
    (detect_missing_schema (pages10 8)).map Problem.urls
      = some (norm_urls ((urls_without_schema (pages10 8)).take 40)) := by
  refine ⟨schema_fires_iff pages, schema_urls pages, ?_, ?_⟩
  · have h := schema_fires_iff (pages10 2)
    have hlen : (urls_without_schema (pages10 2)).length = 2 := by decide
    cases hd : detect_missing_schema (pages10 2) with
    | none => rfl
    | some pr =>
      exfalso
      have hsome : (detect_missing_schema (pages10 2)).isSome = true := by
        rw [hd]
        rfl
      have h3 := (h.mp hsome).1
      omega
  · have h := schema_fires_iff (pages10 8)
    have hlen : (urls_without_schema (pages10 8)).length = 8 := by decide
    have htot : total_valid_of (pages10 8) = 10 := by decide
    have hsome : (detect_missing_schema (pages10 8)).isSome = true := by
      apply h.mpr
      constructor
      · omega
      · rw [hlen, htot]
        norm_num
    obtain ⟨pr, hpr⟩ := Option.isSome_iff_exists.mp hsome
    rw [hpr]
    rw [Option.map_some']
    rw [(schema_urls (pages10 8) pr hpr).1]

/-- Claim C6 (code defect): `normalize_domain` checks the scheme prefix
case-sensitively before lower-casing, so the upper-case example of the spec
bypasses netloc extraction and collapses to the scheme name, while the
lower-case spelling of the same URL produces the expected host. -/
theorem claim_C6_bug_eval :
    normalize_domain (("HTTPS://WWW.Example.com:443/x").toList) = ("https").toList ∧
    ("https").toList ≠ ("example.com").toList ∧
    normalize_domain (("https://www.example.com:443/x").toList) = ("example.com").toList := by
  decide

/-- Claim C8 (amended): the sitemap-selection loop adopts the first candidate
whose fetched URL list is non-empty; there is no minimum useful URL count and
no fallback re-ranking. -/
theorem claim_C8 {σ : Type} (fetch : σ → List (List Char)) (sms : List σ) :
    select_sitemap fetch sms
      = (sms.find? (fun sm => !(fetch sm).isEmpty)).map (fun sm => (sm, fetch sm)) := by
  induction sms with
  | nil => rfl
  | cons sm rest ih =>
    simp only [select_sitemap]
    by_cases h : (fetch sm).isEmpty
    · rw [if_pos h, ih, List.find?_cons_of_neg]
      simp [h]
    · rw [if_neg h, List.find?_cons_of_pos]
      · simp
      · simp [h]

/-- Claim C8, counterexample to the spec's selection policy: the first
candidate yields one URL (below the spec's minimum of 20) and the second
yields twenty, yet the code adopts the first. -/
theorem claim_C8_counterexample :
    select_sitemap fetch0 [0, 1] ≠ select_sitemap_spec fetch0 [0, 1] 20 ∧
    select_sitemap fetch0 [0, 1] = some (0, fetch0 0) ∧
    (fetch0 0).length < 20 ∧ 20 ≤ (fetch0 1).length := by
  decide

/-- Claim C9 (amended): when no sitemap candidate yields any URLs, the sample
becomes the homepage URL alone — the homepage's outbound links are never
consulted as a fallback discovery source. -/
theorem claim_C9 {σ : Type} (robots_maps default_maps : List σ)
    (fetch : σ → List (List Char)) (homepage : List Char)
    (h : ∀ sm ∈ (if robots_maps.isEmpty then default_maps else robots_maps), fetch sm = []) :
    discover_and_sample robots_maps default_maps fetch homepage = [homepage] := by
  simp only [discover_and_sample]
  rw [select_sitemap_none _ _ h]

/-- Claim C9, witness: with no robots sitemaps, one default candidate and a
fetch that yields nothing, the sample is the homepage alone. -/
theorem claim_C9_witness :
    discover_and_sample ([] : List Nat) [0] fetchNone (("https://e.com").toList)
      = [("https://e.com").toList] :=
  claim_C9 ([] : List Nat) [0] fetchNone (("https://e.com").toList) (fun _ _ => rfl)

/-- Claim C9, counterexample to the spec's fallback: the homepage has two
outbound same-domain links, yet the code samples the homepage alone where the
spec's described policy would sample the harvested links. -/
theorem claim_C9_counterexample :
    discover_and_sample ([] : List Nat) [0] fetchNone (("https://e.com").toList)
      ≠ discover_and_sample_spec ([] : List Nat) [0] fetchNone
          (("https://e.com").toList) linksW ∧
    discover_and_sample_spec ([] : List Nat) [0] fetchNone
        (("https://e.com").toList) linksW
      = [("https://e.com").toList, ("https://e.com/a").toList, ("https://e.com/b").toList] ∧
    discover_and_sample ([] : List Nat) [0] fetchNone (("https://e.com").toList)
      = [("https://e.com").toList] := by
  decide

/-- Claim C10: the forbidden-phrase check scans only the concatenation of
description, rationale and remediation — replacing a problem's title never
changes whether the check finds a phrase, and a problem whose title is itself
a forbidden phrase (with clean body fields) passes validation. -/
theorem claim_C10 :
    (∀ (p : Problem) (t : List Char),
      (check_forbidden_one { p with title := t } = [] ↔ check_forbidden_one p = [])) ∧
    validate_results [pTitleOnly] [pTitleOnly] [] = Except.ok true ∧
    occursIn (("Not explicitly listed").toList) pTitleOnly.title = true := by
  refine ⟨?_, by rfl, by decide⟩
  intro p t
  have key : ∀ (tl : List Char),
      (List.filterMap (fun ph => if occursIn ph (full_text p)
          then some (Violation.forbidden_text tl ph) else none) forbidden_phrases = [])
        ↔ (∀ ph ∈ forbidden_phrases, occursIn ph (full_text p) = false) := by
    intro tl
    rw [List.filterMap_eq_nil_iff]
    constructor
    · intro h ph hph
      have h2 := h ph hph
      by_cases hocc : occursIn ph (full_text p) = true
      · rw [if_pos hocc] at h2
        exact absurd h2 (by simp)
      · simpa using hocc
    · intro h ph hph
      rw [if_neg (by simp [h ph hph])]
  have hft : full_text { p with title := t } = full_text p := rfl
  unfold check_forbidden_one
  simp only [hft]
  rw [key, key]

/-!  Claim C7: the behaviour of `normalize_url` on scheme-qualified URLs.  -/

theorem strip_left_eq_self {s : List Char}
    (h : ∀ c, s.head? = some c → isPySpace c = false) : strip_left s = s := by
  unfold strip_left
  cases s with
  | nil => rfl
  | cons c rest =>
    rw [List.dropWhile_cons]
    rw [h c rfl]
    simp

theorem strip_right_eq_self {s : List Char}
    (h : ∀ c, s.getLast? = some c → isPySpace c = false) : strip_right s = s := by
  unfold strip_right
  cases hrev : s.reverse with
  | nil =>
    have hnil : s = [] := by
      have := congrArg List.reverse hrev
      rwa [List.reverse_reverse] at this
    rw [hnil]
    rfl
  | cons c t =>
    have hlast : s.getLast? = some c := by
      rw [← List.head?_reverse, hrev]
      rfl
    rw [List.dropWhile_cons]
    rw [h c hlast]
    simp only [Bool.false_eq_true, if_false]
    rw [← hrev, List.reverse_reverse]

theorem pyStrip_eq_self {s : List Char}
    (hh : ∀ c, s.head? = some c → isPySpace c = false)
    (hl : ∀ c, s.getLast? = some c → isPySpace c = false) : pyStrip s = s := by
  unfold pyStrip
  rw [strip_left_eq_self hh, strip_right_eq_self hl]

theorem rstrip_slash_eq_self {s : List Char}
    (h : ∀ c, s.getLast? = some c → (c == '/') = false) : rstrip_slash s = s := by
  unfold rstrip_slash
  cases hrev : s.reverse with
  | nil =>
    have hnil : s = [] := by
      have := congrArg List.reverse hrev
      rwa [List.reverse_reverse] at this
    rw [hnil]
    rfl
  | cons c t =>
    have hlast : s.getLast? = some c := by
      rw [← List.head?_reverse, hrev]
      rfl
    rw [List.dropWhile_cons]
    rw [h c hlast]
    simp only [Bool.false_eq_true, if_false]
    rw [← hrev, List.reverse_reverse]

theorem replace_go_cons_neg {p0 : Char} {prest rep : List Char} {c : Char}
    {rest : List Char} {fuel : Nat} (h : leadsWith (p0 :: prest) (c :: rest) = false) :
    replace_go p0 prest rep (fuel + 1) (c :: rest) = c :: replace_go p0 prest rep fuel rest := by
  simp only [replace_go]
  rw [h]
  simp

theorem replace_go_no_colon {prest rep : List Char} :
    ∀ {s : List Char} {fuel : Nat}, s.length ≤ fuel → (∀ c ∈ s, c ≠ ':') →
    replace_go ':' prest rep fuel s = s := by
  intro s
  induction s with
  | nil =>
    intro fuel _ _
    cases fuel <;> rfl
  | cons c rest ih =>
    intro fuel hf h
    cases fuel with
    | zero => simp at hf
    | succ f =>
      have hc : leadsWith (':' :: prest) (c :: rest) = false := by
        have hcc : (':' == c) = false := by
          rw [beq_eq_false_iff_ne]
          exact fun he => (h c (List.mem_cons_self _ _)) he.symm
        simp [leadsWith, hcc]
      rw [replace_go_cons_neg hc]
      have hf' : rest.length ≤ f := by
        simp only [List.length_cons] at hf
        omega
      rw [ih hf' (fun x hx => h x (List.mem_cons_of_mem _ hx))]

theorem leadsWith_refl_append (p x : List Char) : leadsWith p (p ++ x) = true := by
  induction p with
  | nil => simp [leadsWith]
  | cons a as ih => simp [leadsWith, ih]

theorem replace_www {r : List Char} (hr : ∀ c ∈ r, c ≠ ':') :
    ∀ {fuel : Nat}, 1 + r.length ≤ fuel →
    replace_go ':' (("//www.").toList) (("://").toList) fuel ((("://www.").toList) ++ r)
      = (("://").toList) ++ r := by
  intro fuel hf
  cases fuel with
  | zero => omega
  | succ f =>
    have hcons : ("://www.").toList = ':' :: ("//www.").toList := by decide
    rw [hcons, List.cons_append]
    have hlead : leadsWith (':' :: (("//www.").toList))
        (':' :: ((("//www.").toList) ++ r)) = true := by
      have := leadsWith_refl_append ((("://www.").toList)) r
      rwa [hcons, List.cons_append] at this
    simp only [replace_go]
    rw [hlead]
    simp only [if_true]
    rw [List.drop_left]
    rw [replace_go_no_colon (by omega) hr]

theorem replace_nowww {r : List Char} (hr : ∀ c ∈ r, c ≠ ':')
    (hw : leadsWith (("www.").toList) r = false) :
    ∀ {fuel : Nat}, 3 + r.length ≤ fuel →
    replace_go ':' (("//www.").toList) (("://").toList) fuel ((("://").toList) ++ r)
      = (("://").toList) ++ r := by
  intro fuel hf
  obtain ⟨f, rfl⟩ : ∃ f, fuel = ((f + 1) + 1) + 1 := ⟨fuel - 3, by omega⟩
  have hcons : ("://").toList = ':' :: '/' :: '/' :: ([] : List Char) := by decide
  have hshape : (("://").toList) ++ r = ':' :: '/' :: '/' :: r := by
    rw [hcons]
    rfl
  rw [hshape]
  have hc1 : leadsWith (':' :: (("//www.").toList)) (':' :: '/' :: '/' :: r) = false := by
    have h2 : ("//www.").toList = '/' :: '/' :: ("www.").toList := by decide
    rw [h2]
    simp only [leadsWith, beq_self_eq_true, Bool.true_and]
    exact hw
  rw [replace_go_cons_neg hc1]
  have hc2 : leadsWith (':' :: (("//www.").toList)) ('/' :: '/' :: r) = false := by
    simp [leadsWith]
  rw [replace_go_cons_neg hc2]
  have hc3 : leadsWith (':' :: (("//www.").toList)) ('/' :: r) = false := by
    simp [leadsWith]
  rw [replace_go_cons_neg hc3]
  rw [replace_go_no_colon (by omega) hr]

theorem replace_go_prefix {prest rep : List Char} : ∀ (scheme : List Char),
    (∀ c ∈ scheme, c ≠ ':') → ∀ (x : List Char) (fuel : Nat),
    replace_go ':' prest rep (fuel + scheme.length) (scheme ++ x)
      = scheme ++ replace_go ':' prest rep fuel x := by
  intro scheme
  induction scheme with
  | nil =>
    intro _ x fuel
    rfl
  | cons c s0 ih =>
    intro h x fuel
    have hc : leadsWith (':' :: prest) (c :: (s0 ++ x)) = false := by
      have hcc : (':' == c) = false := by
        rw [beq_eq_false_iff_ne]
        exact fun he => (h c (List.mem_cons_self _ _)) he.symm
      simp [leadsWith, hcc]
    have hlen : fuel + (c :: s0).length = (fuel + s0.length) + 1 := rfl
    rw [List.cons_append, hlen, replace_go_cons_neg hc, ih (fun x hx =>
      h x (List.mem_cons_of_mem _ hx)) x fuel]
    rfl

theorem pyReplace_www (s : List Char) :
    pyReplace s (("://www.").toList) (("://").toList)
      = replace_go ':' (("//www.").toList) (("://").toList) s.length s := by
  have hcons : ("://www.").toList = ':' :: ("//www.").toList := by decide
  rw [hcons]
  rfl

/-- Claim C7 (amended): `normalize_url` rewrites the `"://www."` separator to
`"://"` (after trimming whitespace and trailing slashes) and otherwise keeps
the URL intact: `www` and non-`www` variants of a page normalize to the same
string, while the scheme and the path are preserved. -/
theorem claim_C7 (scheme r : List Char)
    (hs : scheme ≠ [])
    (hsc : ∀ c ∈ scheme, isPySpace c = false ∧ c ≠ ':')
    (hr : ∀ c ∈ r, isPySpace c = false ∧ c ≠ ':')
    (hrn : r ≠ []) (hlast : r.getLast? ≠ some '/')
    (hw : leadsWith (("www.").toList) r = false) :
    normalize_url (scheme ++ (("://www.").toList) ++ r)
      = scheme ++ (("://").toList) ++ r ∧
    normalize_url (scheme ++ (("://").toList) ++ r)
      = scheme ++ (("://").toList) ++ r := by
  obtain ⟨c0, s0, rfl⟩ := List.exists_cons_of_ne_nil hs
  obtain ⟨cl, hcl⟩ : ∃ cl, r.getLast? = some cl := by
    cases hg : r.getLast? with
    | none => exact absurd (List.getLast?_eq_none_iff.mp hg) hrn
    | some cl => exact ⟨cl, rfl⟩
  have hclr : cl ∈ r := List.mem_of_mem_getLast? (Option.mem_def.mpr hcl)
  have hsc' : ∀ c ∈ c0 :: s0, c ≠ ':' := fun c hc => (hsc c hc).2
  have hr' : ∀ c ∈ r, c ≠ ':' := fun c hc => (hr c hc).2
  have hstrip : ∀ (M : List Char),
      pyStrip ((c0 :: s0) ++ M ++ r) = (c0 :: s0) ++ M ++ r := by
    intro M
    apply pyStrip_eq_self
    · intro c hc
      have hhd : ((c0 :: s0) ++ M ++ r).head? = some c0 := by
        rw [List.cons_append, List.cons_append]
        rfl
      rw [hhd] at hc
      injection hc with hc
      rw [← hc]
      exact (hsc c0 (List.mem_cons_self _ _)).1
    · intro c hc
      rw [List.append_assoc,
        List.getLast?_append_of_ne_nil _ (fun hN => hrn (List.append_eq_nil.mp hN).2),
        List.getLast?_append_of_ne_nil _ hrn, hcl] at hc
      injection hc with hc
      rw [← hc]
      exact (hr cl hclr).1
  have hrstrip : ∀ (M : List Char),
      rstrip_slash ((c0 :: s0) ++ M ++ r) = (c0 :: s0) ++ M ++ r := by
    intro M
    apply rstrip_slash_eq_self
    intro c hc
    rw [List.append_assoc,
      List.getLast?_append_of_ne_nil _ (fun hN => hrn (List.append_eq_nil.mp hN).2),
      List.getLast?_append_of_ne_nil _ hrn, hcl] at hc
    injection hc with hc
    rw [← hc, beq_eq_false_iff_ne]
    intro he
    exact hlast (by rw [hcl, he])
  constructor
  · unfold normalize_url
    rw [hstrip, hrstrip, pyReplace_www]
    simp only [List.append_assoc]
    rw [List.length_append, Nat.add_comm (c0 :: s0).length _,
      replace_go_prefix (c0 :: s0) hsc' _ _]
    congr 1
    apply replace_www hr'
    rw [List.length_append]
    have h7 : ((("://www.").toList)).length = 7 := by decide
    omega
  · unfold normalize_url
    rw [hstrip, hrstrip, pyReplace_www]
    simp only [List.append_assoc]
    rw [List.length_append, Nat.add_comm (c0 :: s0).length _,
      replace_go_prefix (c0 :: s0) hsc' _ _]
    congr 1
    apply replace_nowww hr' hw
    rw [List.length_append]
    have h3 : ((("://").toList)).length = 3 := by decide
    omega

/-- Claim C7, witness: the www and non-www spellings of
`https://example.com/a` normalize to the same string, and the non-www
spelling is returned unchanged — scheme and path preserved. -/
theorem claim_C7_witness :
    normalize_url ((("https").toList) ++ (("://www.").toList) ++ (("example.com/a").toList))
      = (("https").toList) ++ (("://").toList) ++ (("example.com/a").toList) ∧
    normalize_url ((("https").toList) ++ (("://").toList) ++ (("example.com/a").toList))
      = (("https").toList) ++ (("://").toList) ++ (("example.com/a").toList) :=
  claim_C7 (("https").toList) (("example.com/a").toList)
    (by decide) (by decide) (by decide) (by decide) (by decide) (by decide)

/-- Claim C7, counterexample to the claim as stated: the scheme is not
stripped, so http and https variants of one page do not normalize to the same
string, and a URL keeps its scheme prefix after normalization. -/
theorem claim_C7_counterexample :
    normalize_url (("http://example.com/a").toList)
      ≠ normalize_url (("https://example.com/a").toList) ∧
    normalize_url (("https://example.com").toList) ≠ ("example.com").toList := by
  decide

/-- Claim C2: every problem in the detector's output carries a non-empty,
duplicate-free URL list, and a rule whose trigger condition matches nothing
returns `None` rather than a problem with an empty URL list. -/
theorem claim_C2 (pages : List Page) (broken : List Broken) (thr : Int) :
    (∀ p, (p ∈ (detect_problems pages broken thr).quick_wins ∨
        p ∈ (detect_problems pages broken thr).critical_errors ∨
        p ∈ (detect_problems pages broken thr).warnings) →
      p.urls ≠ [] ∧ p.urls.Nodup) ∧
    ((∀ p ∈ pages, err_flag p = false → safe_int p.h1_count ≠ 0) →
      detect_missing_h1 pages = none) ∧
    ((∀ kv ∈ meta_map_of pages, kv.2.length ≤ 1) →
      detect_duplicate_meta pages = none) ∧
    ((∀ p ∈ pages, err_flag p = false →
        ¬(0 < safe_int p.word_count ∧ safe_int p.word_count < thr)) →
      detect_thin_content pages thr = none) ∧
    ((∀ p ∈ pages, err_flag p = false → ¬(1 < safe_int p.h1_count)) →
      detect_multiple_h1 pages = none) ∧
    ((∀ p ∈ pages, err_flag p = false →
        ¬(title_of p ≠ [] ∧ 60 < (title_of p).length)) →
      detect_title_too_long pages = none) ∧
    ((∀ p ∈ pages, err_flag p = false → meta_of p ≠ []) →
      detect_missing_meta pages = none) ∧
    (broken = [] → detect_broken_links broken = none) ∧
    ((∀ p ∈ pages, err_flag p = false → title_of p ≠ []) →
      detect_missing_title pages = none) ∧
    ((∀ kv ∈ title_map_of pages, kv.2.length ≤ 1) →
      detect_duplicate_titles pages = none) ∧
    ((∀ p ∈ pages, err_flag p = false → safe_int p.jsonld_count ≠ 0) →
      detect_missing_schema pages = none) ∧
    ((∀ p ∈ pages, status_bad p = false) →
      detect_pages_with_errors pages = none) := by
  refine ⟨?_, ?_, ?_, ?_, ?_, ?_, ?_, ?_, ?_, ?_, ?_, ?_⟩
  · intro p hp
    have hmem : p ∈ all_problems_of pages broken thr := by
      rcases hp with h | h | h
      · exact (sort_desc_perm _).subset (List.take_subset _ _ h)
      · exact List.mem_of_mem_filter h
      · exact List.mem_of_mem_filter h
    obtain ⟨hg, hne⟩ := all_problems_spec hmem
    exact ⟨hne, hg.1⟩
  · intro h
    have hf : pages.filter (fun p => !err_flag p && safe_int p.h1_count == 0) = [] := by
      rw [List.filter_eq_nil_iff]
      intro p hp hc
      rw [Bool.and_eq_true, Bool.not_eq_true'] at hc
      exact h p hp hc.1 (by simpa using hc.2)
    simp [detect_missing_h1, hf]
  · intro h
    have hf : (meta_map_of pages).filter (fun kv => 1 < kv.2.length) = [] := by
      rw [List.filter_eq_nil_iff]
      intro kv hkv hc
      rw [decide_eq_true_eq] at hc
      exact absurd (h kv hkv) (by omega)
    simp [detect_duplicate_meta, hf]
  · intro h
    have hf : pages.filter (fun p =>
        !err_flag p && 0 < safe_int p.word_count && safe_int p.word_count < thr) = [] := by
      rw [List.filter_eq_nil_iff]
      intro p hp hc
      rw [Bool.and_eq_true, Bool.and_eq_true, Bool.not_eq_true'] at hc
      exact h p hp hc.1.1 ⟨by simpa using hc.1.2, by simpa using hc.2⟩
    simp [detect_thin_content, hf]
  · intro h
    have hf : pages.filter (fun p => !err_flag p && 1 < safe_int p.h1_count) = [] := by
      rw [List.filter_eq_nil_iff]
      intro p hp hc
      rw [Bool.and_eq_true, Bool.not_eq_true'] at hc
      exact h p hp hc.1 (by simpa using hc.2)
    simp [detect_multiple_h1, hf]
  · intro h
    have hf : pages.filter (fun p =>
        !err_flag p && !(title_of p).isEmpty && 60 < (title_of p).length) = [] := by
      rw [List.filter_eq_nil_iff]
      intro p hp hc
      rw [Bool.and_eq_true, Bool.and_eq_true, Bool.not_eq_true', Bool.not_eq_true'] at hc
      refine h p hp hc.1.1 ⟨?_, by simpa using hc.2⟩
      simpa [List.isEmpty_eq_false] using hc.1.2
    simp [detect_title_too_long, hf]
  · intro h
    have hf : pages.filter (fun p => !err_flag p && (meta_of p).isEmpty) = [] := by
      rw [List.filter_eq_nil_iff]
      intro p hp hc
      rw [Bool.and_eq_true, Bool.not_eq_true'] at hc
      exact h p hp hc.1 (by simpa [List.isEmpty_iff] using hc.2)
    simp [detect_missing_meta, hf]
  · intro h
    rw [h]
    rfl
  · intro h
    have hf : pages.filter (fun p => !err_flag p && (title_of p).isEmpty) = [] := by
      rw [List.filter_eq_nil_iff]
      intro p hp hc
      rw [Bool.and_eq_true, Bool.not_eq_true'] at hc
      exact h p hp hc.1 (by simpa [List.isEmpty_iff] using hc.2)
    simp [detect_missing_title, hf]
  · intro h
    have hf : (title_map_of pages).filter (fun kv => 1 < kv.2.length) = [] := by
      rw [List.filter_eq_nil_iff]
      intro kv hkv hc
      rw [decide_eq_true_eq] at hc
      exact absurd (h kv hkv) (by omega)
    simp [detect_duplicate_titles, hf]
  · intro h
    have hf : urls_without_schema pages = [] := by
      unfold urls_without_schema
      have hfl : pages.filter (fun p => !err_flag p && safe_int p.jsonld_count == 0) = [] := by
        rw [List.filter_eq_nil_iff]
        intro p hp hc
        rw [Bool.and_eq_true, Bool.not_eq_true'] at hc
        exact h p hp hc.1 (by simpa using hc.2)
      rw [hfl]
      rfl
    by_cases h0 : (total_valid_of pages == 0) = true
    · simp [detect_missing_schema, h0]
    · simp [detect_missing_schema, h0, hf]
  · intro h
    have hf : pages.filter (fun p => status_bad p && !(p.url.getD []).isEmpty) = [] := by
      rw [List.filter_eq_nil_iff]
      intro p hp hc
      rw [Bool.and_eq_true] at hc
      rw [h p hp] at hc
      simp at hc
    simp [detect_pages_with_errors, hf]

/-- Claim C3 (round trip): feeding the triple produced by `detect_problems`
directly into `validate_results` never raises — validation returns `True` for
every input. -/
theorem claim_C3 (pages : List Page) (broken : List Broken) (thr : Int) :
    validate_results (detect_problems pages broken thr).quick_wins
      (detect_problems pages broken thr).critical_errors
      (detect_problems pages broken thr).warnings = Except.ok true := by
  have hcef : (detect_problems pages broken thr).critical_errors
      = (all_problems_of pages broken thr).filter
          (fun p => p.severity == ("critical").toList) := rfl
  have hwnf : (detect_problems pages broken thr).warnings
      = (all_problems_of pages broken thr).filter
          (fun p => p.severity == ("warning").toList) := rfl
  have hmemA : ∀ p, p ∈ (detect_problems pages broken thr).quick_wins ∨
      p ∈ (detect_problems pages broken thr).critical_errors ∨
      p ∈ (detect_problems pages broken thr).warnings →
      p ∈ all_problems_of pages broken thr := by
    intro p hp
    rcases hp with h | h | h
    · exact (sort_desc_perm _).subset (List.take_subset _ _ h)
    · exact List.mem_of_mem_filter h
    · exact List.mem_of_mem_filter h
  have hall : ∀ p ∈ (detect_problems pages broken thr).quick_wins
      ++ (detect_problems pages broken thr).critical_errors
      ++ (detect_problems pages broken thr).warnings,
      p ∈ all_problems_of pages broken thr := by
    intro p hp
    rcases List.mem_append.mp hp with hp1 | hp2
    · rcases List.mem_append.mp hp1 with h | h
      · exact hmemA p (Or.inl h)
      · exact hmemA p (Or.inr (Or.inl h))
    · exact hmemA p (Or.inr (Or.inr hp2))
  have h1 : check_quick_wins (detect_problems pages broken thr).quick_wins
      ((detect_problems pages broken thr).critical_errors
        ++ (detect_problems pages broken thr).warnings) = [] := by
    unfold check_quick_wins
    rw [List.flatMap_eq_nil_iff]
    intro q hq
    have hqA := hmemA q (Or.inl hq)
    have hgood := (all_problems_spec hqA).1
    have hqCW : q ∈ (detect_problems pages broken thr).critical_errors
        ++ (detect_problems pages broken thr).warnings := by
      rcases hgood.2.1 with hs | hs
      · refine List.mem_append_left _ ?_
        rw [hcef]
        exact List.mem_filter.mpr ⟨hqA, by simp [hs]⟩
      · refine List.mem_append_right _ ?_
        rw [hwnf]
        exact List.mem_filter.mpr ⟨hqA, by simp [hs]⟩
    have hnd := cw_titles_nodup pages broken thr
    rw [dict_get_of_mem_nodup _ hnd q hqCW]
    simp [set_eq_self]
  have h2 : check_html ((detect_problems pages broken thr).quick_wins
      ++ (detect_problems pages broken thr).critical_errors
      ++ (detect_problems pages broken thr).warnings) = [] := by
    unfold check_html
    rw [List.flatMap_eq_nil_iff]
    intro p hp
    obtain ⟨hg, -⟩ := all_problems_spec (hall p hp)
    obtain ⟨-, -, ht, hd, hwm, hhm, -⟩ := hg
    rw [List.flatMap_eq_nil_iff]
    intro fv hfv
    have hfield : NoMarkup fv.2 := by
      simp only [fields_of, List.mem_cons, List.not_mem_nil, or_false] at hfv
      rcases hfv with rfl | rfl | rfl | rfl
      · exact ht
      · exact hd
      · exact hwm
      · exact hhm
    by_cases he : fv.2.isEmpty
    · simp [he]
    · have hlt : fv.2.contains '<' = false := by
        by_contra hcc
        rw [Bool.not_eq_false] at hcc
        have hmem : '<' ∈ fv.2 := List.elem_iff.mp hcc
        exact hfield.1 hmem
      have he1 : occursIn (("&lt;").toList) fv.2 = false := by
        by_contra hcc
        rw [Bool.not_eq_false] at hcc
        exact hfield.2 (occursIn_chars hcc '&' (by decide))
      have he2 : occursIn (("&gt;").toList) fv.2 = false := by
        by_contra hcc
        rw [Bool.not_eq_false] at hcc
        exact hfield.2 (occursIn_chars hcc '&' (by decide))
      have he3 : occursIn (("&amp;").toList) fv.2 = false := by
        by_contra hcc
        rw [Bool.not_eq_false] at hcc
        exact hfield.2 (occursIn_chars hcc '&' (by decide))
      simp [he, hlt, he1, he2, he3]
      exact ⟨fun hm => absurd hm hfield.1, ⟨he1, he2⟩, he3⟩
  have h3 : check_dup_urls ((detect_problems pages broken thr).quick_wins
      ++ (detect_problems pages broken thr).critical_errors
      ++ (detect_problems pages broken thr).warnings) = [] := by
    unfold check_dup_urls
    rw [List.flatMap_eq_nil_iff]
    intro p hp
    obtain ⟨hg, -⟩ := all_problems_spec (hall p hp)
    have hd : p.urls.dedup = p.urls := List.dedup_eq_self.mpr hg.1
    simp [hd]
  have h4 : check_forbidden ((detect_problems pages broken thr).quick_wins
      ++ (detect_problems pages broken thr).critical_errors
      ++ (detect_problems pages broken thr).warnings) = [] := by
    unfold check_forbidden
    rw [List.flatMap_eq_nil_iff]
    intro p hp
    obtain ⟨hg, -⟩ := all_problems_spec (hall p hp)
    unfold check_forbidden_one
    rw [List.filterMap_eq_nil_iff]
    intro ph hph
    rw [hg.2.2.2.2.2.2 ph hph]
    simp
  unfold validate_results
  rw [show violations_of (detect_problems pages broken thr).quick_wins
      (detect_problems pages broken thr).critical_errors
      (detect_problems pages broken thr).warnings = [] from by
    simp only [violations_of]
    rw [h1, h2, h3, h4]
    rfl]
  rfl

end QW
